import Mathlib

/-!
# Arcium poker client helpers: entropy, mock envelope and account derivation inputs

A shallow embedding of `tests/helpers/mxe_crypto.ts`, `scripts/get-mxe-addresses.ts`,
`check_comp_def_addresses.js`, `derive_comp_def_correct.js`, `init_comp_def.js` and the
entropy of `test_mock_mode.ts`, followed by the properties proved about them.

Conventions of the embedding:

* a byte is a `Fin 256`; a `Uint8Array` / `Buffer` is a list of bytes;
* a function that can throw returns `Except JsError _`;
* the secure random source of a runtime is a stream of bytes; drawing `n` bytes
  returns the first `n` and advances the stream;
* the runtime (which crypto objects exist, what has been written to the console)
  is an explicit `Env` that every effectful helper takes and returns;
* `PublicKey.findProgramAddressSync` (SHA-256 and the curve test of
  `@solana/web3.js`) is not part of the repository and is a parameter.
-/

namespace ArciumPoker

/-! ## Bytes, typed arrays, errors -/

/-- One element of a `Uint8Array` or `Buffer`. -/
abbrev Byte := Fin 256

/-- A JavaScript `Uint8Array` (also used for Node `Buffer`s): its elements in order. -/
abbrev Uint8Array := List Byte

/-- Exceptions the modelled library calls can throw. -/
inductive JsError where
  /-- `RangeError`: `TypedArray.prototype.set` with a source that does not fit,
  `crypto.randomBytes` with a size out of range, `Buffer.writeUInt32LE` out of range. -/
  | rangeError
  /-- `QuotaExceededError` of `crypto.getRandomValues` (more than 65536 bytes). -/
  | quotaExceeded
  /-- `Error` thrown by `BN.toArrayLike` ("byte array longer than desired length"). -/
  | bnLength
  /-- `Error` thrown by `findProgramAddressSync` (seed too long, no bump found). -/
  | derivation
  /-- `Error` thrown by `new PublicKey(str)` ("Invalid public key input"). -/
  | invalidPublicKey
  /-- `BorshError` thrown by `borsh.serialize` (wrong array length). -/
  | borsh
  /-- `Error` "Assertion failed" of the `BN` constructor (a number of `2^53` or more). -/
  | assertion
  /-- `TypeError` (reading a property of `undefined`). -/
  | typeError
  deriving DecidableEq, Repr

deriving instance DecidableEq for Except

/-- `new Uint8Array(n)`: `n` zero bytes. -/
def Uint8Array.alloc (n : Nat) : Uint8Array := List.replicate n 0

/-- `a.slice(start, stop)` for non-negative indices (both are clamped to the length). -/
def Uint8Array.slice (a : Uint8Array) (start stop : Nat) : Uint8Array :=
  (a.take stop).drop start

/-- `target.set(source)` at offset 0: throws `RangeError` when `source` is longer than
`target`, otherwise overwrites the first `source.length` elements of `target`. -/
def Uint8Array.set (target source : Uint8Array) : Except JsError Uint8Array :=
  if source.length > target.length then .error .rangeError
  else .ok (source ++ target.drop source.length)

/-- `Array.from(u8)`: the elements as JavaScript numbers. -/
def Array.from (a : Uint8Array) : List Nat := a.map Fin.val

/-- A `PublicKey` of `@solana/web3.js`, identified with the 32 bytes `toBuffer()` returns. -/
structure PublicKey where
  toBuffer : Uint8Array
  size_eq : toBuffer.length = 32
  deriving DecidableEq, Repr

/-! ## The random source and the runtime -/

/-- A secure random source: the stream of bytes it will yield. -/
abbrev RandomSource := Nat → Byte

/-- The first `n` bytes of the stream. -/
def RandomSource.draw (src : RandomSource) (n : Nat) : Uint8Array :=
  (List.range n).map src

/-- The stream after `n` bytes have been consumed. -/
def RandomSource.advance (src : RandomSource) (n : Nat) : RandomSource :=
  fun i => src (i + n)

/-- `crypto.getRandomValues(arr)` of Web Crypto: throws when `arr` has more than 65536
bytes, otherwise overwrites every element of `arr` with a byte of the source. -/
def getRandomValues (src : RandomSource) (arr : Uint8Array) :
    Except JsError (Uint8Array × RandomSource) :=
  if arr.length > 65536 then .error .quotaExceeded
  else .ok (src.draw arr.length, src.advance arr.length)

/-- Node `crypto.randomBytes(size)`: a fresh buffer of `size` random bytes; throws
`RangeError` when `size` exceeds `2^31 - 1`. -/
def randomBytes (src : RandomSource) (size : Nat) :
    Except JsError (Uint8Array × RandomSource) :=
  if size > 2 ^ 31 - 1 then .error .rangeError
  else .ok (src.draw size, src.advance size)

/-- The runtime the helpers run in.
`windowCrypto` is `some _` exactly when `typeof window !== 'undefined' && window.crypto`
holds, `globalCrypto` exactly when `typeof global !== 'undefined' && global.crypto`
holds; `nodeCrypto` is the module `require('crypto')` returns; `console` collects the
`console.warn` lines, oldest first. -/
structure Env where
  windowCrypto : Option RandomSource
  globalCrypto : Option RandomSource
  nodeCrypto : RandomSource
  console : List String

/-- `console.warn(msg)`. -/
def Env.warn (env : Env) (msg : String) : Env :=
  { env with console := env.console ++ [msg] }

/-! ## `tests/helpers/mxe_crypto.ts` -/

/-- `generatePlayerEntropy()` (mxe_crypto.ts 24-41). -/
def generatePlayerEntropy (env : Env) : Except JsError (Uint8Array × Env) :=
  let entropy := Uint8Array.alloc 32
  match env.windowCrypto with
  | some w =>
    -- Browser environment
    match getRandomValues w entropy with
    | .error e => .error e
    | .ok (entropy, w) => .ok (entropy, { env with windowCrypto := some w })
  | none =>
    match env.globalCrypto with
    | some g =>
      -- Node.js 19+ environment
      match getRandomValues g entropy with
      | .error e => .error e
      | .ok (entropy, g) => .ok (entropy, { env with globalCrypto := some g })
    | none =>
      -- Fallback for older Node.js
      match randomBytes env.nodeCrypto 32 with
      | .error e => .error e
      | .ok (bytes, c) =>
        match Uint8Array.set entropy bytes with
        | .error e => .error e
        | .ok entropy => .ok (entropy, { env with nodeCrypto := c })

/-- The message `encryptForMxe` writes to the console. -/
def mockEncryptionWarning : String :=
  "[MXE] Using MOCK encryption - install @arcium-hq/client for production"

/-- The object `encryptForMxe` returns. -/
structure Envelope where
  ciphertext : Uint8Array
  nonce : Uint8Array
  owner : Option PublicKey
  deriving DecidableEq, Repr

/-- The 16-byte nonce drawn at the top of `encryptForMxe` (mxe_crypto.ts 70-78). -/
def generateNonce (env : Env) : Except JsError (Uint8Array × Env) :=
  let nonce := Uint8Array.alloc 16
  match env.windowCrypto with
  | some w =>
    match getRandomValues w nonce with
    | .error e => .error e
    | .ok (nonce, w) => .ok (nonce, { env with windowCrypto := some w })
  | none =>
    match env.globalCrypto with
    | some g =>
      match getRandomValues g nonce with
      | .error e => .error e
      | .ok (nonce, g) => .ok (nonce, { env with globalCrypto := some g })
    | none =>
      match randomBytes env.nodeCrypto 16 with
      | .error e => .error e
      | .ok (bytes, c) =>
        match Uint8Array.set nonce bytes with
        | .error e => .error e
        | .ok nonce => .ok (nonce, { env with nodeCrypto := c })

/-- `encryptForMxe(data, ownerPublicKey)` (mxe_crypto.ts 61-92). -/
def encryptForMxe (data : Uint8Array) (ownerPublicKey : Option PublicKey) (env : Env) :
    Except JsError (Envelope × Env) :=
  -- Generate random nonce
  match generateNonce env with
  | .error e => .error e
  | .ok (nonce, env) =>
    let env := env.warn mockEncryptionWarning
    let ciphertext := Uint8Array.alloc 32
    -- Mock: just copy data
    match Uint8Array.set ciphertext (Uint8Array.slice data 0 32) with
    | .error e => .error e
    | .ok ciphertext =>
      .ok ({ ciphertext := ciphertext, nonce := nonce, owner := ownerPublicKey }, env)

/-- `decryptFromMxe(ciphertext, nonce, secretKey)` (mxe_crypto.ts 110-120). -/
def decryptFromMxe (ciphertext _nonce _secretKey : Uint8Array) (env : Env) :
    Uint8Array × Env :=
  let env := env.warn "[MXE] Using MOCK decryption - install @arcium-hq/client for production"
  -- Mock: just return ciphertext as-is
  (ciphertext, env)

/-- `preparePlayerEntropyForProgram(entropy, playerPublicKey)` (mxe_crypto.ts 131-143).
A `Uint8Array` is an object and therefore truthy whatever its length, so
`entropy || generatePlayerEntropy()` generates only when `entropy` is absent. -/
def preparePlayerEntropyForProgram (entropy : Option Uint8Array)
    (playerPublicKey : Option PublicKey) (env : Env) : Except JsError (List Nat × Env) :=
  -- Generate entropy if not provided
  let actual : Except JsError (Uint8Array × Env) :=
    match entropy with
    | some e => .ok (e, env)
    | none => generatePlayerEntropy env
  match actual with
  | .error e => .error e
  | .ok (actualEntropy, env) =>
    -- Encrypt for MXE
    match encryptForMxe actualEntropy playerPublicKey env with
    | .error e => .error e
    | .ok (encrypted, env) =>
      -- Convert to number array for Anchor
      .ok (Array.from encrypted.ciphertext, env)

/-- The `for (let i = ...; i < playerCount; i++)` loop of `generateMultiPlayerEntropy`,
with `remaining = playerCount - i` iterations still to run. -/
def generateMultiPlayerEntropy.loop (playerPublicKeys : Option (List PublicKey)) :
    (remaining i : Nat) → List (List Nat) → Env → Except JsError (List (List Nat) × Env)
  | 0, _, entropyArrays, env => .ok (entropyArrays, env)
  | remaining + 1, i, entropyArrays, env =>
    let playerKey := playerPublicKeys.bind (fun keys => keys[i]?)
    match preparePlayerEntropyForProgram none playerKey env with
    | .error e => .error e
    | .ok (entropy, env) =>
      generateMultiPlayerEntropy.loop playerPublicKeys remaining (i + 1)
        (entropyArrays ++ [entropy]) env

/-- `generateMultiPlayerEntropy(playerCount, playerPublicKeys)` (mxe_crypto.ts 152-165)
for a non-negative integer `playerCount`. -/
def generateMultiPlayerEntropy (playerCount : Nat) (playerPublicKeys : Option (List PublicKey))
    (env : Env) : Except JsError (List (List Nat) × Env) :=
  generateMultiPlayerEntropy.loop playerPublicKeys playerCount 0 [] env

/-! ## Buffers, numbers and public keys as the scripts build them -/

/-- `Buffer.from(str)`: the UTF-8 bytes of `str`. -/
def Buffer.from (s : String) : Uint8Array :=
  s.toList.flatMap (fun c => (String.utf8EncodeChar c).map (fun b => Fin.ofNat b.toNat))

/-- Base-256 digits of `n`, least significant first, without leading zeros (`fuel` bounds
the number of digits produced). -/
def natBytesLE : Nat → Nat → Uint8Array
  | 0, _ => []
  | fuel + 1, n => if n = 0 then [] else Fin.ofNat n :: natBytesLE fuel (n / 256)

/-- The `width` low-order bytes of `value`, least significant first. -/
def littleEndian (value width : Nat) : Uint8Array :=
  (List.range width).map (fun i => Fin.ofNat (value / 256 ^ i))

/-- `new anchor.BN(value).toArrayLike(Buffer, 'le', width)` of bn.js for a JavaScript
number holding a non-negative integer: the constructor asserts `value < 2^53`; the
required length is `width`, or the minimal length (at least 1) when `width` is 0; and
`toArrayLike` throws when `value` needs more bytes than that. -/
def BN.toArrayLike (value width : Nat) : Except JsError Uint8Array :=
  if 2 ^ 53 ≤ value then .error .assertion
  else
    let byteLength := (natBytesLE value value).length
    let reqLength := if width = 0 then max 1 byteLength else width
    if byteLength ≤ reqLength then .ok (littleEndian value reqLength) else .error .bnLength

/-- Reading a buffer back as a little-endian unsigned integer. -/
def readLittleEndian (bytes : Uint8Array) : Nat :=
  bytes.foldr (fun b acc => b.val + 256 * acc) 0

/-- Decimal digits of `n`, least significant first (`fuel` bounds the number of digits). -/
def decimalDigitsLE : Nat → Nat → List Nat
  | 0, _ => []
  | fuel + 1, n => if n < 10 then [n] else n % 10 :: decimalDigitsLE fuel (n / 10)

/-- `n.toString()` of a JavaScript number holding a non-negative safe integer
(`n < 2^53`): its decimal digits, most significant first. From `2^53` on a JavaScript
number no longer holds every integer and prints shortest round-trip digits, which this
definition does not model; the statements about it are restricted to `n < 2^53`. -/
def Number.toString (n : Nat) : String :=
  String.mk ((decimalDigitsLE (n + 1) n).reverse.map Nat.digitChar)

/-- The Bitcoin base-58 alphabet of `bs58`. -/
def base58Alphabet : List Char :=
  "123456789ABCDEFGHJKLMNPQRSTUVWXYZabcdefghijkmnopqrstuvwxyz".toList

/-- Value of one base-58 character. -/
def base58Digit (c : Char) : Option Nat :=
  let i := base58Alphabet.indexOf c
  if i < 58 then some i else none

/-- `bs58.decode`: each leading `1` is a zero byte, the rest is a big-endian number. -/
def base58Decode (s : String) : Option Uint8Array :=
  match s.toList.mapM base58Digit with
  | none => none
  | some ds =>
    let zeros := (ds.takeWhile (fun d => d = 0)).length
    let n := ds.foldl (fun acc d => acc * 58 + d) 0
    some (List.replicate zeros 0 ++ (natBytesLE ds.length n).reverse)

/-- Base-58 digits of `n`, least significant first. -/
def base58DigitsLE : Nat → Nat → List Nat
  | 0, _ => []
  | fuel + 1, n => if n = 0 then [] else n % 58 :: base58DigitsLE fuel (n / 58)

/-- `bs58.encode`. -/
def base58Encode (bytes : Uint8Array) : String :=
  let zeros := (bytes.takeWhile (fun b => b = 0)).length
  let n := bytes.foldl (fun acc b => acc * 256 + b.val) 0
  String.mk (List.replicate zeros '1' ++
    (base58DigitsLE (2 * bytes.length) n).reverse.map (fun d => base58Alphabet.getD d '1'))

/-- `new PublicKey(str)` for a base-58 string: throws unless it decodes to 32 bytes. -/
def PublicKey.new (s : String) : Except JsError PublicKey :=
  match base58Decode s with
  | some bytes => if h : bytes.length = 32 then .ok ⟨bytes, h⟩ else .error .invalidPublicKey
  | none => .error .invalidPublicKey

/-- `key.toBase58()`. -/
def PublicKey.toBase58 (key : PublicKey) : String := base58Encode key.toBuffer

/-- The part of `@solana/web3.js` that is a parameter of the development:
`PublicKey.findProgramAddressSync(seeds, programId)`, which returns `[address, bump]`
or throws. -/
structure Web3 where
  findProgramAddressSync : List Uint8Array → PublicKey → Except JsError (PublicKey × Nat)

/-! ## `scripts/get-mxe-addresses.ts` -/

namespace GetMxeAddresses

/-- Seeds of derivation 1, "MXE Account" (lines 42-45). -/
def mxeSeeds (PROGRAM_ID : PublicKey) : List Uint8Array :=
  [Buffer.from "mxe", PROGRAM_ID.toBuffer]

/-- Seeds of derivation 2, "Computation Definition" (lines 53-60). -/
def compDefSeeds (mxeAccount : PublicKey) (COMP_DEF_OFFSET : Nat) :
    Except JsError (List Uint8Array) :=
  match BN.toArrayLike COMP_DEF_OFFSET 4 with
  | .error e => .error e
  | .ok offset => .ok [Buffer.from "comp_def", mxeAccount.toBuffer, offset]

/-- Seeds of derivation 3, "Mempool" (lines 68-71). -/
def mempoolSeeds (mxeAccount : PublicKey) : List Uint8Array :=
  [Buffer.from "mempool", mxeAccount.toBuffer]

/-- Seeds of derivation 4, "Executing Pool" (lines 79-82). -/
def executingPoolSeeds (mxeAccount : PublicKey) : List Uint8Array :=
  [Buffer.from "executing_pool", mxeAccount.toBuffer]

/-- Seeds of derivation 5, "Cluster" (lines 90-93). -/
def clusterSeeds (CLUSTER_OFFSET : Nat) : Except JsError (List Uint8Array) :=
  match BN.toArrayLike CLUSTER_OFFSET 8 with
  | .error e => .error e
  | .ok offset => .ok [Buffer.from "cluster", offset]

/-- Seeds of derivation 6, "Sign Seed" (lines 101-104). -/
def signSeedSeeds (mxeAccount : PublicKey) : List Uint8Array :=
  [Buffer.from "sign_seed", mxeAccount.toBuffer]

/-- Seeds of derivation 7, "Staking Pool" (lines 112-115). -/
def stakingPoolSeeds : List Uint8Array :=
  [Buffer.from "staking_pool"]

/-- The seven `[address, bump]` pairs the script computes. -/
structure Accounts where
  mxeAccount : PublicKey × Nat
  compDef : PublicKey × Nat
  mempool : PublicKey × Nat
  executingPool : PublicKey × Nat
  cluster : PublicKey × Nat
  signSeed : PublicKey × Nat
  stakingPool : PublicKey × Nat
  deriving DecidableEq, Repr

/-- Lines 41-115 of the script for given values of its four configuration constants. -/
def deriveAccounts (web3 : Web3) (PROGRAM_ID MXE_PROGRAM : PublicKey)
    (CLUSTER_OFFSET COMP_DEF_OFFSET : Nat) : Except JsError Accounts := do
  -- 1. MXE Account (main account)
  let mxe ← web3.findProgramAddressSync (mxeSeeds PROGRAM_ID) MXE_PROGRAM
  let mxeAccount := mxe.1
  -- 2. Computation Definition
  let compDef ← web3.findProgramAddressSync (← compDefSeeds mxeAccount COMP_DEF_OFFSET)
    MXE_PROGRAM
  -- 3. Mempool
  let mempool ← web3.findProgramAddressSync (mempoolSeeds mxeAccount) MXE_PROGRAM
  -- 4. Executing Pool
  let executingPool ← web3.findProgramAddressSync (executingPoolSeeds mxeAccount) MXE_PROGRAM
  -- 5. Cluster
  let cluster ← web3.findProgramAddressSync (← clusterSeeds CLUSTER_OFFSET) MXE_PROGRAM
  -- 6. Sign Seed
  let signSeed ← web3.findProgramAddressSync (signSeedSeeds mxeAccount) MXE_PROGRAM
  -- 7. Staking Pool
  let stakingPool ← web3.findProgramAddressSync stakingPoolSeeds MXE_PROGRAM
  pure { mxeAccount := mxe, compDef := compDef, mempool := mempool,
         executingPool := executingPool, cluster := cluster, signSeed := signSeed,
         stakingPool := stakingPool }

/-- `CLUSTER_OFFSET` (line 20). -/
def CLUSTER_OFFSET : Nat := 1078779259

/-- `COMP_DEF_OFFSET` (line 21). -/
def COMP_DEF_OFFSET : Nat := 1

/-- `PROGRAM_ID` (line 18). -/
def PROGRAM_ID : Except JsError PublicKey :=
  PublicKey.new "B5E1V3DJsjMPzQb4QyMUuVhESqnWMXVcead4AEBvJB4W"

/-- `MXE_PROGRAM` (line 19). -/
def MXE_PROGRAM : Except JsError PublicKey :=
  PublicKey.new "BKck65TgoKRokMjQM3datB9oRwJ8rAj2jxPXvHXUvcL6"

/-- The script as shipped: the constants of lines 18-21, then the seven derivations. -/
def main (web3 : Web3) : Except JsError Accounts := do
  let programId ← PROGRAM_ID
  let mxeProgram ← MXE_PROGRAM
  deriveAccounts web3 programId mxeProgram CLUSTER_OFFSET COMP_DEF_OFFSET

end GetMxeAddresses

/-! ## `check_comp_def_addresses.js` -/

namespace CheckCompDefAddresses

/-- `OLD_CLUSTER_OFFSET` (line 8). -/
def OLD_CLUSTER_OFFSET : Nat := 1078779259

/-- `NEW_CLUSTER_OFFSET` (line 10). -/
def NEW_CLUSTER_OFFSET : Nat := 2326510165

/-- The seed array `deriveCompDefPDA` passes to `findProgramAddressSync` (lines 14-19). -/
def deriveCompDefPDA.seeds (mxeAccount : PublicKey) (clusterOffset compDefOffset : Nat) :
    List Uint8Array :=
  [Buffer.from "comp_def",
   mxeAccount.toBuffer,
   Buffer.from (Number.toString clusterOffset),
   Buffer.from (Number.toString compDefOffset)]

/-- `deriveCompDefPDA(mxeProgramId, mxeAccount, clusterOffset, compDefOffset)`
(lines 12-23); the result is `{ pda: pda.toBase58(), bump }`. -/
def deriveCompDefPDA (web3 : Web3) (mxeProgramId mxeAccount : PublicKey)
    (clusterOffset compDefOffset : Nat) : Except JsError (String × Nat) :=
  match web3.findProgramAddressSync
      (deriveCompDefPDA.seeds mxeAccount clusterOffset compDefOffset) mxeProgramId with
  | .error e => .error e
  | .ok (pda, bump) => .ok (pda.toBase58, bump)

/-- The branch the comparison of lines 36-41 takes. -/
inductive Comparison where
  /-- "SAME ADDRESS - Cluster offset doesn't matter for comp_def PDA". -/
  | sameAddress
  /-- "DIFFERENT ADDRESSES - This is the problem!". -/
  | differentAddresses
  deriving DecidableEq, Repr

/-- `MXE_PROGRAM_ID` (line 4). -/
def MXE_PROGRAM_ID : Except JsError PublicKey :=
  PublicKey.new "BKck65TgoKRokMjQM3datB9oRwJ8rAj2jxPXvHXUvcL6"

/-- `MXE_ACCOUNT` (line 5). -/
def MXE_ACCOUNT : Except JsError PublicKey :=
  PublicKey.new "HyEnFUXebxGdJLoaTq2cfRtKht7Ke6gkMNrsBx8vBHMo"

/-- The bytes of `MXE_ACCOUNT`. -/
def mxeAccountKey : PublicKey :=
  ⟨[252, 35, 24, 239, 253, 17, 0, 45, 136, 149, 172, 14, 105, 29, 45, 81, 36, 198, 51, 107,
    117, 210, 33, 146, 59, 96, 2, 170, 67, 0, 248, 246], rfl⟩

/-- The script as shipped (lines 4-41): both derivations, then the comparison. -/
def main (web3 : Web3) : Except JsError Comparison := do
  let mxeProgramId ← MXE_PROGRAM_ID
  let mxeAccount ← MXE_ACCOUNT
  let oldShufflePDA ← deriveCompDefPDA web3 mxeProgramId mxeAccount OLD_CLUSTER_OFFSET 1
  let newShufflePDA ← deriveCompDefPDA web3 mxeProgramId mxeAccount NEW_CLUSTER_OFFSET 1
  if oldShufflePDA.1 = newShufflePDA.1 then pure .sameAddress else pure .differentAddresses

end CheckCompDefAddresses

/-! ## `deriveMxeAccounts` of `tests/helpers/mxe_crypto.ts` -/

/-- `Buffer.from(array)` for an array of non-negative integers: each element is stored
modulo 256. -/
def Buffer.fromArray (xs : List Nat) : Uint8Array := xs.map (fun x => Fin.ofNat x)

/-- Seeds of the "MXE main account" derivation (mxe_crypto.ts 186-189). -/
def deriveMxeAccounts.mxeSeeds : List Uint8Array := [Buffer.from "mxe"]

/-- Seeds of the "Computation definition account" derivation (mxe_crypto.ts 192-195). -/
def deriveMxeAccounts.compDefSeeds (compDefOffset : Nat) : List Uint8Array :=
  [Buffer.from "comp_def", Buffer.fromArray [compDefOffset]]

/-- Seeds of the "Mempool account" derivation (mxe_crypto.ts 198-201). -/
def deriveMxeAccounts.mempoolSeeds : List Uint8Array := [Buffer.from "mempool"]

/-- Seeds of the "Cluster account" derivation (mxe_crypto.ts 204-207). -/
def deriveMxeAccounts.clusterSeeds : List Uint8Array := [Buffer.from "cluster"]

/-- The object `deriveMxeAccounts` returns. -/
structure MxeAccounts where
  mxeAccount : PublicKey
  compDefAccount : PublicKey
  mempoolAccount : PublicKey
  clusterAccount : PublicKey
  deriving DecidableEq, Repr

/-- `deriveMxeAccounts(mxeProgramId, compDefOffset)` (mxe_crypto.ts 176-215) for a
non-negative integer `compDefOffset`; each destructuring `const [account] = ...` keeps
the address and drops the bump. -/
def deriveMxeAccounts (web3 : Web3) (mxeProgramId : PublicKey) (compDefOffset : Nat) :
    Except JsError MxeAccounts := do
  -- MXE main account
  let mxe ← web3.findProgramAddressSync deriveMxeAccounts.mxeSeeds mxeProgramId
  -- Computation definition account
  let compDef ← web3.findProgramAddressSync (deriveMxeAccounts.compDefSeeds compDefOffset)
    mxeProgramId
  -- Mempool account (for queueing computations)
  let mempool ← web3.findProgramAddressSync deriveMxeAccounts.mempoolSeeds mxeProgramId
  -- Cluster account
  let cluster ← web3.findProgramAddressSync deriveMxeAccounts.clusterSeeds mxeProgramId
  pure { mxeAccount := mxe.1, compDefAccount := compDef.1, mempoolAccount := mempool.1,
         clusterAccount := cluster.1 }

/-! ## `derive_comp_def_correct.js` and `init_comp_def.js` -/

/-- `buf.writeUInt32LE(value)` at offset 0: throws `RangeError` when `value` exceeds
`2^32 - 1` or the buffer has fewer than 4 bytes, otherwise overwrites the first four
bytes with `value`, least significant byte first. -/
def Buffer.writeUInt32LE (buf : Uint8Array) (value : Nat) : Except JsError Uint8Array :=
  if value > 2 ^ 32 - 1 ∨ buf.length < 4 then .error .rangeError
  else .ok (littleEndian value 4 ++ buf.drop 4)

/-- The bytes of the key `BKck65TgoKRokMjQM3datB9oRwJ8rAj2jxPXvHXUvcL6`. -/
def mxeProgramKey : PublicKey :=
  ⟨[153, 89, 189, 10, 99, 5, 197, 115, 205, 251, 227, 58, 99, 177, 59, 219, 67, 157, 187, 1,
    46, 241, 131, 120, 38, 92, 206, 139, 130, 93, 10, 119], rfl⟩

namespace DeriveCompDefCorrect

/-- `MXE_PROGRAM` (line 3). -/
def MXE_PROGRAM : Except JsError PublicKey :=
  PublicKey.new "BKck65TgoKRokMjQM3datB9oRwJ8rAj2jxPXvHXUvcL6"

/-- `COMP_DEF_OFFSET` (line 4). -/
def COMP_DEF_OFFSET : Nat := 1

/-- `offsetBytes` (lines 7-8): `Buffer.alloc(4)` after `writeUInt32LE(COMP_DEF_OFFSET)`. -/
def offsetBytes : Except JsError Uint8Array :=
  Buffer.writeUInt32LE (Uint8Array.alloc 4) COMP_DEF_OFFSET

/-- The seed array of lines 16-20. -/
def seeds : Except JsError (List Uint8Array) := do
  let mxeProgram ← MXE_PROGRAM
  let offset ← offsetBytes
  pure [Buffer.from "ComputationDefinitionAccount", mxeProgram.toBuffer, offset]

/-- Lines 15-22: `[compDef, bump]`. -/
def main (web3 : Web3) : Except JsError (PublicKey × Nat) := do
  let mxeProgram ← MXE_PROGRAM
  let seedList ← seeds
  web3.findProgramAddressSync seedList mxeProgram

end DeriveCompDefCorrect

/-- Field types of the borsh schemas used in `init_comp_def.js`. -/
inductive Borsh.FieldType where
  /-- The type named `'u32'`. -/
  | u32
  /-- A fixed-size byte array `[n]`. -/
  | fixedArray (n : Nat)
  deriving DecidableEq, Repr

/-- Field values handed to `borsh.serialize`. -/
inductive Borsh.Value where
  /-- A JavaScript number holding a non-negative integer. -/
  | number (n : Nat)
  /-- An array of such numbers. -/
  | array (xs : List Nat)
  /-- The value `undefined` of a field the object does not have. -/
  | undefined
  deriving DecidableEq, Repr

/-- `writer.writeU32(value)` for a number: `buf.writeUInt32LE(value)`, which throws
`RangeError` above `2^32 - 1`. -/
def Borsh.writeU32 (v : Nat) : Except JsError Uint8Array :=
  if v > 2 ^ 32 - 1 then .error .rangeError else .ok (littleEndian v 4)

/-- `serializeField` of borsh-js 0.7. A field of type `'u32'` is written with
`writeUInt32LE(value)`, which converts its argument to a number first: `undefined` and an
array of two or more elements become `NaN` and are written as `00 00 00 00`, the empty
array becomes 0 and a one-element array its element. A fixed array `[n]` must have
`value.length` equal to `n` (a number has no length; reading it of `undefined` is a
`TypeError`) and is written as `Buffer.from(value)`. -/
def Borsh.serializeField : Borsh.FieldType → Borsh.Value → Except JsError Uint8Array
  | .u32, .number v => Borsh.writeU32 v
  | .u32, .array [] => Borsh.writeU32 0
  | .u32, .array [x] => Borsh.writeU32 x
  | .u32, .array _ => .ok [0, 0, 0, 0]
  | .u32, .undefined => .ok [0, 0, 0, 0]
  | .fixedArray n, .array xs =>
    if xs.length ≠ n then .error .borsh else .ok (Buffer.fromArray xs)
  | .fixedArray _, .number _ => .error .borsh
  | .fixedArray _, .undefined => .error .typeError

/-- `borsh.serialize(schema, obj)` for a `kind: 'struct'` schema: the fields are
serialized in schema order, each read by name from the object (`undefined` when the
object has no such field). -/
def Borsh.serializeStruct :
    List (String × Borsh.FieldType) → List (String × Borsh.Value) → Except JsError Uint8Array
  | [], _ => .ok []
  | (name, fieldType) :: rest, obj =>
    match Borsh.serializeField fieldType ((obj.lookup name).getD .undefined) with
    | .error e => .error e
    | .ok head =>
      match Borsh.serializeStruct rest obj with
      | .error e => .error e
      | .ok tail => .ok (head ++ tail)

/-- `Buffer.concat(list)`. -/
def Buffer.concat (list : List Uint8Array) : Uint8Array := list.flatten

namespace InitCompDef

/-- `MXE_PROGRAM` (line 8). -/
def MXE_PROGRAM : Except JsError PublicKey :=
  PublicKey.new "BKck65TgoKRokMjQM3datB9oRwJ8rAj2jxPXvHXUvcL6"

/-- `COMP_DEF_OFFSET` (line 9). -/
def COMP_DEF_OFFSET : Nat := 1

/-- `INIT_COMP_DEF_DISCRIMINATOR` (line 12). -/
def INIT_COMP_DEF_DISCRIMINATOR : Uint8Array :=
  Buffer.fromArray [45, 185, 155, 17, 97, 77, 230, 73]

/-- The fields of `initCompDefSchema` (lines 22-30). -/
def initCompDefSchema : List (String × Borsh.FieldType) :=
  [("mxeProgram", .fixedArray 32),  -- Pubkey as 32-byte array
   ("compOffset", .u32)]

/-- `compDefOffsetBytes` (lines 49-50). -/
def compDefOffsetBytes : Except JsError Uint8Array :=
  Buffer.writeUInt32LE (Uint8Array.alloc 4) COMP_DEF_OFFSET

/-- The seed array of lines 53-57. -/
def compDefSeeds : Except JsError (List Uint8Array) := do
  let mxeProgram ← MXE_PROGRAM
  let offset ← compDefOffsetBytes
  pure [Buffer.from "ComputationDefinitionAccount", mxeProgram.toBuffer, offset]

/-- Lines 52-59: the result of `findProgramAddressSync`, of which the script keeps the
address as `compDefAccount`. -/
def deriveCompDef (web3 : Web3) : Except JsError (PublicKey × Nat) := do
  let mxeProgram ← MXE_PROGRAM
  let seedList ← compDefSeeds
  web3.findProgramAddressSync seedList mxeProgram

/-- `args` (lines 74-77) as the object borsh reads. -/
def args : Except JsError (List (String × Borsh.Value)) := do
  let mxeProgram ← MXE_PROGRAM
  pure [("mxeProgram", .array (Array.from mxeProgram.toBuffer)),
        ("compOffset", .number COMP_DEF_OFFSET)]

/-- `instructionData` (lines 79-83). -/
def instructionData : Except JsError Uint8Array := do
  let obj ← args
  let argsData ← Borsh.serializeStruct initCompDefSchema obj
  pure (Buffer.concat [INIT_COMP_DEF_DISCRIMINATOR, argsData])

end InitCompDef

/-! ## `test_mock_mode.ts` -/

namespace TestMockMode

/-- `Array(n).fill(v)`. -/
def arrayFill {α : Type} (n : Nat) (v : α) : List α := List.replicate n v

/-- `playerEntropy` (line 113):
`Array(2).fill(0).map(() => Array(32).fill(0))`. -/
def playerEntropy : List (List Nat) :=
  (arrayFill 2 0).map (fun (_ : Nat) => arrayFill 32 0)

end TestMockMode

/-! ## Mode selection -/

/-- The account graph a caller supplies: each of the eight members may be absent. -/
structure SuppliedAccountGraph where
  mxe : Option PublicKey
  compDef : Option PublicKey
  mempool : Option PublicKey
  executingPool : Option PublicKey
  cluster : Option PublicKey
  signSeed : Option PublicKey
  stakingPool : Option PublicKey
  computation : Option PublicKey
  deriving DecidableEq, Repr

/-- The eight members in the fixed order of the spec. -/
def SuppliedAccountGraph.members (g : SuppliedAccountGraph) : List (Option PublicKey) :=
  [g.mxe, g.compDef, g.mempool, g.executingPool, g.cluster, g.signSeed, g.stakingPool,
   g.computation]

/-- Number of members that are present. -/
def SuppliedAccountGraph.presentCount (g : SuppliedAccountGraph) : Nat :=
  (g.members.filter Option.isSome).length

/-- `ExecutionMode` of the spec. -/
inductive ExecutionMode where
  | real
  | mock
  deriving DecidableEq, Repr

/-- The error of the spec's taxonomy that mode selection can raise. -/
inductive ProtocolError where
  | incompleteAccountGraph
  deriving DecidableEq, Repr

/-- Modelled from the spec: `selectMode`, which is decided by the on-chain program's
`start_game` handler and is not among the source files (only its caller
`test_mock_mode.ts` is). Following sections 4.2, 7 and 8: the check is structural;
`Real` when every member is present, `Mock` when none is, and a partially supplied graph
is rejected with `IncompleteAccountGraph`. -/
def selectMode (g : SuppliedAccountGraph) : Except ProtocolError ExecutionMode :=
  if g.members.all Option.isSome then .ok .real
  else if g.members.all Option.isNone then .ok .mock
  else .error .incompleteAccountGraph

/-! ## Sample inputs used to evaluate the scripts and helpers -/

/-- A stand-in for `findProgramAddressSync`, used only to run the scripts on concrete
input: it enforces the seed limits of the library (at most 16 seeds of at most 32 bytes)
and returns a 32-byte checksum of the seeds and the program id, with bump 255.
It is not the SHA-256 derivation. -/
def sampleWeb3 : Web3 :=
  { findProgramAddressSync := fun seeds programId =>
      if seeds.length > 16 ∨ seeds.any (fun s => decide (s.length > 32)) then .error .derivation
      else
        let input := (seeds.map (fun s => (Fin.ofNat s.length : Byte) :: s)).flatten
          ++ programId.toBuffer
        let sum := input.foldl (fun acc b => acc * 257 + b.val + 1) 0
        .ok (⟨littleEndian sum 32, by simp [littleEndian]⟩, 255) }

/-- The key whose 32 bytes are all `b`. -/
def sampleKey (b : Byte) : PublicKey := ⟨List.replicate 32 b, by simp⟩

/-- A runtime in which only the Node fallback is available. -/
def sampleNodeEnv : Env :=
  { windowCrypto := none, globalCrypto := none,
    nodeCrypto := fun i => Fin.ofNat (7 * i + 3), console := [] }

/-- A runtime with `global.crypto`. -/
def sampleGlobalEnv : Env :=
  { windowCrypto := none, globalCrypto := some (fun i => Fin.ofNat (5 * i + 1)),
    nodeCrypto := fun i => Fin.ofNat (7 * i + 3), console := [] }

/-- A browser runtime. -/
def sampleBrowserEnv : Env :=
  { windowCrypto := some (fun i => Fin.ofNat (11 * i + 2)), globalCrypto := none,
    nodeCrypto := fun i => Fin.ofNat (7 * i + 3), console := [] }

/-- The bytes `0, 1, ..., 31`. -/
def sampleData32 : Uint8Array := (List.range 32).map (fun i => Fin.ofNat i)

/-- The random source the environment test of `generatePlayerEntropy` and of
`encryptForMxe` selects: `window.crypto`, else `global.crypto`, else Node `crypto`. -/
def Env.activeSource (env : Env) : RandomSource :=
  match env.windowCrypto, env.globalCrypto with
  | some w, _ => w
  | none, some g => g
  | none, none => env.nodeCrypto

/-- The runtime after the selected source has yielded `n` bytes. -/
def Env.consume (env : Env) (n : Nat) : Env :=
  match env.windowCrypto, env.globalCrypto with
  | some w, _ => { env with windowCrypto := some (w.advance n) }
  | none, some g => { env with globalCrypto := some (g.advance n) }
  | none, none => { env with nodeCrypto := env.nodeCrypto.advance n }

/-! ## Basic facts about the typed-array operations -/

theorem draw_length (src : RandomSource) (n : Nat) : (src.draw n).length = n := by
  simp [RandomSource.draw]

theorem alloc_length (n : Nat) : (Uint8Array.alloc n).length = n := by
  simp [Uint8Array.alloc]

theorem getRandomValues_alloc (src : RandomSource) (n : Nat) (h : n ≤ 65536) :
    getRandomValues src (Uint8Array.alloc n) = .ok (src.draw n, src.advance n) := by
  have h' : ¬ n > 65536 := by omega
  simp [getRandomValues, Uint8Array.alloc, h']

theorem randomBytes_small (src : RandomSource) (n : Nat) (h : n ≤ 2 ^ 31 - 1) :
    randomBytes src n = .ok (src.draw n, src.advance n) := by
  have h' : ¬ n > 2 ^ 31 - 1 := by omega
  simp only [randomBytes, h', if_false]

theorem set_alloc (n : Nat) (s : Uint8Array) (h : s.length ≤ n) :
    Uint8Array.set (Uint8Array.alloc n) s = .ok (s ++ List.replicate (n - s.length) 0) := by
  have h' : ¬ s.length > n := by omega
  simp [Uint8Array.set, Uint8Array.alloc, h']

theorem set_alloc_full (n : Nat) (s : Uint8Array) (h : s.length = n) :
    Uint8Array.set (Uint8Array.alloc n) s = .ok s := by
  rw [set_alloc n s (by omega)]
  simp [h]

theorem slice_zero_length (a : Uint8Array) (n : Nat) :
    (Uint8Array.slice a 0 n).length = min n a.length := by
  simp [Uint8Array.slice]

theorem slice_zero_of_length (a : Uint8Array) (n : Nat) (h : a.length = n) :
    Uint8Array.slice a 0 n = a := by
  simp [Uint8Array.slice, ← h]

/-! ## What the helpers of `mxe_crypto.ts` compute -/

theorem generatePlayerEntropy_eq (env : Env) :
    generatePlayerEntropy env = .ok (env.activeSource.draw 32, env.consume 32) := by
  unfold generatePlayerEntropy Env.activeSource Env.consume
  rcases hw : env.windowCrypto with _ | w
  · rcases hg : env.globalCrypto with _ | g
    · simp [randomBytes_small, set_alloc_full, draw_length]
    · simp [getRandomValues_alloc]
  · simp [getRandomValues_alloc]

theorem generateNonce_eq (env : Env) :
    generateNonce env = .ok (env.activeSource.draw 16, env.consume 16) := by
  unfold generateNonce Env.activeSource Env.consume
  rcases hw : env.windowCrypto with _ | w
  · rcases hg : env.globalCrypto with _ | g
    · simp [randomBytes_small, set_alloc_full, draw_length]
    · simp [getRandomValues_alloc]
  · simp [getRandomValues_alloc]

theorem encryptForMxe_eq (data : Uint8Array) (owner : Option PublicKey) (env : Env) :
    encryptForMxe data owner env =
      .ok ({ ciphertext := data.take 32 ++ List.replicate (32 - min 32 data.length) 0,
             nonce := env.activeSource.draw 16, owner := owner },
           (env.consume 16).warn mockEncryptionWarning) := by
  unfold encryptForMxe
  rw [generateNonce_eq]
  have hlen : (Uint8Array.slice data 0 32).length ≤ 32 := by
    rw [slice_zero_length]; omega
  simp only [set_alloc 32 _ hlen, slice_zero_length]
  simp [Uint8Array.slice, mockEncryptionWarning]

theorem preparePlayerEntropyForProgram_eq (entropy : Option Uint8Array)
    (key : Option PublicKey) (env : Env) :
    ∃ (data : Uint8Array) (env1 : Env), preparePlayerEntropyForProgram entropy key env =
      .ok (Array.from (data.take 32 ++ List.replicate (32 - min 32 data.length) 0),
           (env1.consume 16).warn mockEncryptionWarning) ∧
      (∀ e, entropy = some e → data = e) := by
  unfold preparePlayerEntropyForProgram
  cases entropy with
  | none =>
    refine ⟨env.activeSource.draw 32, env.consume 32, ?_, by simp⟩
    simp [generatePlayerEntropy_eq, encryptForMxe_eq]
  | some e =>
    refine ⟨e, env, ?_, by simp⟩
    simp [encryptForMxe_eq]

theorem from_length (a : Uint8Array) : (Array.from a).length = a.length := by
  simp [Array.from]

theorem from_lt (a : Uint8Array) : ∀ x ∈ Array.from a, x < 256 := by
  intro x hx
  simp only [Array.from, List.mem_map] at hx
  obtain ⟨b, _, rfl⟩ := hx
  exact b.isLt

theorem padded_length (data : Uint8Array) :
    (data.take 32 ++ List.replicate (32 - min 32 data.length) (0 : Byte)).length = 32 := by
  simp only [List.length_append, List.length_take, List.length_replicate]
  omega

theorem preparePlayerEntropyForProgram_shape (entropy : Option Uint8Array)
    (key : Option PublicKey) (env : Env) :
    ∃ out env1, preparePlayerEntropyForProgram entropy key env = .ok (out, env1) ∧
      out.length = 32 ∧ ∀ x ∈ out, x < 256 := by
  obtain ⟨data, env1, h, _⟩ := preparePlayerEntropyForProgram_eq entropy key env
  exact ⟨_, _, h, by rw [from_length, padded_length], from_lt _⟩

theorem loop_shape (keys : Option (List PublicKey)) (remaining : Nat) :
    ∀ (i : Nat) (acc : List (List Nat)) (env : Env),
      (∀ entry ∈ acc, entry.length = 32 ∧ ∀ x ∈ entry, x < 256) →
      ∃ out env1, generateMultiPlayerEntropy.loop keys remaining i acc env = .ok (out, env1) ∧
        out.length = acc.length + remaining ∧
        ∀ entry ∈ out, entry.length = 32 ∧ ∀ x ∈ entry, x < 256 := by
  induction remaining with
  | zero =>
    intro i acc env hacc
    exact ⟨acc, env, rfl, by simp, hacc⟩
  | succ n ih =>
    intro i acc env hacc
    obtain ⟨e, env1, he, hlen, hlt⟩ :=
      preparePlayerEntropyForProgram_shape none (keys.bind (fun ks => ks[i]?)) env
    have hacc1 : ∀ entry ∈ acc ++ [e], entry.length = 32 ∧ ∀ x ∈ entry, x < 256 := by
      intro entry hentry
      rcases List.mem_append.mp hentry with h | h
      · exact hacc entry h
      · rw [List.mem_singleton.mp h]; exact ⟨hlen, hlt⟩
    obtain ⟨out, env2, hout, hl, hall⟩ := ih (i + 1) (acc ++ [e]) env1 hacc1
    refine ⟨out, env2, ?_, ?_, hall⟩
    · simp only [generateMultiPlayerEntropy.loop, he]
      exact hout
    · rw [hl]; simp; omega

/-! ## Facts about the encodings used in seeds -/

theorem exists_ok_of_isOk {ε α : Type} {x : Except ε α} (h : x.isOk = true) :
    ∃ a, x = .ok a := by
  cases x with
  | error e => simp [Except.isOk, Except.toBool] at h
  | ok a => exact ⟨a, rfl⟩

theorem natBytesLE_length_le (fuel : Nat) :
    ∀ (n w : Nat), n < 256 ^ w → (natBytesLE fuel n).length ≤ w := by
  induction fuel with
  | zero => intro n w _; simp [natBytesLE]
  | succ f ih =>
    intro n w h
    unfold natBytesLE
    by_cases hn : n = 0
    · simp [hn]
    · cases w with
      | zero => simp at h; exact absurd h hn
      | succ w =>
        simp only [hn, if_false, List.length_cons]
        have : n / 256 < 256 ^ w := by
          rw [Nat.div_lt_iff_lt_mul (by norm_num)]
          rw [pow_succ] at h
          exact h
        have := ih (n / 256) w this
        omega

theorem toArrayLike_of_lt (value width : Nat) (hw : 0 < width) (h : value < 256 ^ width)
    (hsafe : value < 2 ^ 53) :
    BN.toArrayLike value width = .ok (littleEndian value width) := by
  have hlen := natBytesLE_length_le value value width h
  have hw0 : width ≠ 0 := by omega
  have hs : ¬ 2 ^ 53 ≤ value := by omega
  unfold BN.toArrayLike
  rw [if_neg hs]
  simp only [hw0, if_false, hlen, if_true]

theorem toArrayLike_ok (value width : Nat) (bytes : Uint8Array) (hw : 0 < width)
    (h : BN.toArrayLike value width = .ok bytes) :
    bytes = littleEndian value width ∧ value < 2 ^ 53 := by
  have hw0 : width ≠ 0 := by omega
  unfold BN.toArrayLike at h
  by_cases hs : 2 ^ 53 ≤ value
  · rw [if_pos hs] at h
    exact absurd h (by simp)
  · rw [if_neg hs] at h
    simp only [hw0, if_false] at h
    by_cases hl : (natBytesLE value value).length ≤ width
    · simp only [hl, if_true] at h
      exact ⟨(Except.ok.inj h).symm, by omega⟩
    · simp only [hl, if_false] at h
      exact absurd h (by simp)

theorem clusterSeeds_ok (clusterOffset : Nat) (seeds : List Uint8Array)
    (h : GetMxeAddresses.clusterSeeds clusterOffset = .ok seeds) :
    seeds = [Buffer.from "cluster", littleEndian clusterOffset 8] ∧ clusterOffset < 2 ^ 53 := by
  unfold GetMxeAddresses.clusterSeeds at h
  cases hb : BN.toArrayLike clusterOffset 8 with
  | error e => simp [hb] at h
  | ok bytes =>
    obtain ⟨hbytes, hsafe⟩ := toArrayLike_ok clusterOffset 8 bytes (by norm_num) hb
    simp only [hb] at h
    exact ⟨by rw [← Except.ok.inj h, hbytes], hsafe⟩

theorem littleEndian_length (value width : Nat) : (littleEndian value width).length = width := by
  simp [littleEndian]

theorem littleEndian_succ (value width : Nat) :
    littleEndian value (width + 1) = Fin.ofNat value :: littleEndian (value / 256) width := by
  simp only [littleEndian, List.range_succ_eq_map, List.map_cons, List.map_map, pow_zero,
    Nat.div_one]
  congr 1
  apply List.map_congr_left
  intro i _
  simp [Function.comp, pow_succ, Nat.div_div_eq_div_mul, Nat.mul_comm]

theorem readLittleEndian_littleEndian (width : Nat) :
    ∀ value, readLittleEndian (littleEndian value width) = value % 256 ^ width := by
  induction width with
  | zero => intro value; simp [littleEndian, readLittleEndian, Nat.mod_one]
  | succ w ih =>
    intro value
    rw [littleEndian_succ]
    have hcons : readLittleEndian (Fin.ofNat value :: littleEndian (value / 256) w)
        = (Fin.ofNat value : Byte).val + 256 * readLittleEndian (littleEndian (value / 256) w) := by
      simp [readLittleEndian]
    rw [hcons, ih, pow_succ', Nat.mod_mul]
    simp [Fin.ofNat]

theorem decimalDigitsLE_lt (fuel : Nat) :
    ∀ n, ∀ d ∈ decimalDigitsLE fuel n, d < 10 := by
  induction fuel with
  | zero => intro n d hd; simp [decimalDigitsLE] at hd
  | succ f ih =>
    intro n d hd
    unfold decimalDigitsLE at hd
    by_cases hn : n < 10
    · simp only [hn, if_true, List.mem_singleton] at hd
      omega
    · simp only [hn, if_false, List.mem_cons] at hd
      rcases hd with hd | hd
      · omega
      · exact ih _ d hd

theorem ofDigits_decimalDigitsLE (fuel : Nat) :
    ∀ n, n < fuel → Nat.ofDigits 10 (decimalDigitsLE fuel n) = n := by
  induction fuel with
  | zero => intro n h; omega
  | succ f ih =>
    intro n h
    unfold decimalDigitsLE
    by_cases hn : n < 10
    · simp [hn, Nat.ofDigits]
    · simp only [hn, if_false, Nat.ofDigits_cons]
      rw [ih (n / 10) (by omega)]
      omega

theorem utf8_digitChar (d : Nat) (h : d < 10) :
    (String.utf8EncodeChar (Nat.digitChar d)).map (fun b => (Fin.ofNat b.toNat : Byte))
      = [Fin.ofNat (48 + d)] := by
  interval_cases d <;> decide

theorem flatMap_digitChar (l : List Nat) (h : ∀ d ∈ l, d < 10) :
    (l.map Nat.digitChar).flatMap
        (fun c => (String.utf8EncodeChar c).map (fun b => (Fin.ofNat b.toNat : Byte)))
      = l.map (fun d => (Fin.ofNat (48 + d) : Byte)) := by
  induction l with
  | nil => rfl
  | cons d l ih =>
    have hd := utf8_digitChar d (h d (List.mem_cons_self d l))
    have hl := ih (fun x hx => h x (List.mem_cons_of_mem d hx))
    simp only [List.map_cons, List.flatMap_cons, hd, hl]
    rfl

theorem from_digits (l : List Nat) (h : ∀ d ∈ l, d < 10) :
    Buffer.from (String.mk (l.map Nat.digitChar))
      = l.map (fun d => (Fin.ofNat (48 + d) : Byte)) :=
  flatMap_digitChar l h

theorem digit_bytes_decode (l : List Nat) (h : ∀ d ∈ l, d < 10) :
    (l.map (fun d => (Fin.ofNat (48 + d) : Byte))).map (fun b => b.val - 48) = l := by
  induction l with
  | nil => rfl
  | cons d l ih =>
    have hd := h d (List.mem_cons_self d l)
    have hl := ih (fun x hx => h x (List.mem_cons_of_mem d hx))
    simp only [List.map_cons, hl, List.cons.injEq, and_true]
    simp only [Fin.ofNat, Nat.succ_eq_add_one]
    omega

/-- The decimal string of a number determines the number. -/
theorem from_toString_injective (a b : Nat)
    (h : Buffer.from (Number.toString a) = Buffer.from (Number.toString b)) : a = b := by
  have key : ∀ n, Nat.ofDigits 10
      (((Buffer.from (Number.toString n)).map (fun x => x.val - 48)).reverse) = n := by
    intro n
    have hlt : ∀ d ∈ (decimalDigitsLE (n + 1) n).reverse, d < 10 := by
      intro d hd
      exact decimalDigitsLE_lt (n + 1) n d (List.mem_reverse.mp hd)
    unfold Number.toString
    rw [from_digits _ hlt, digit_bytes_decode _ hlt, List.reverse_reverse]
    exact ofDigits_decimalDigitsLE (n + 1) n (by omega)
  rw [← key a, ← key b, h]

/-! ## Facts about `scripts/get-mxe-addresses.ts` -/

open GetMxeAddresses in
theorem deriveAccounts_ok (web3 : Web3) (programId mxeProgram : PublicKey)
    (clusterOffset compDefOffset : Nat) (out : Accounts)
    (h : deriveAccounts web3 programId mxeProgram clusterOffset compDefOffset = .ok out) :
    web3.findProgramAddressSync (mxeSeeds programId) mxeProgram = .ok out.mxeAccount ∧
    (∃ seeds, compDefSeeds out.mxeAccount.1 compDefOffset = .ok seeds ∧
      web3.findProgramAddressSync seeds mxeProgram = .ok out.compDef) ∧
    web3.findProgramAddressSync (mempoolSeeds out.mxeAccount.1) mxeProgram = .ok out.mempool ∧
    web3.findProgramAddressSync (executingPoolSeeds out.mxeAccount.1) mxeProgram
      = .ok out.executingPool ∧
    (∃ seeds, clusterSeeds clusterOffset = .ok seeds ∧
      web3.findProgramAddressSync seeds mxeProgram = .ok out.cluster) ∧
    web3.findProgramAddressSync (signSeedSeeds out.mxeAccount.1) mxeProgram = .ok out.signSeed ∧
    web3.findProgramAddressSync stakingPoolSeeds mxeProgram = .ok out.stakingPool := by
  unfold deriveAccounts at h
  simp only [bind, Except.bind, pure, Except.pure] at h
  cases h1 : web3.findProgramAddressSync (mxeSeeds programId) mxeProgram with
  | error e => simp [h1] at h
  | ok mxe =>
    simp only [h1] at h
    cases h2 : compDefSeeds mxe.1 compDefOffset with
    | error e => simp [h2] at h
    | ok s2 =>
      simp only [h2] at h
      cases h3 : web3.findProgramAddressSync s2 mxeProgram with
      | error e => simp [h3] at h
      | ok compDef =>
        simp only [h3] at h
        cases h4 : web3.findProgramAddressSync (mempoolSeeds mxe.1) mxeProgram with
        | error e => simp [h4] at h
        | ok mempool =>
          simp only [h4] at h
          cases h5 : web3.findProgramAddressSync (executingPoolSeeds mxe.1) mxeProgram with
          | error e => simp [h5] at h
          | ok pool =>
            simp only [h5] at h
            cases h6 : clusterSeeds clusterOffset with
            | error e => simp [h6] at h
            | ok s6 =>
              simp only [h6] at h
              cases h7 : web3.findProgramAddressSync s6 mxeProgram with
              | error e => simp [h7] at h
              | ok cluster =>
                simp only [h7] at h
                cases h8 : web3.findProgramAddressSync (signSeedSeeds mxe.1) mxeProgram with
                | error e => simp [h8] at h
                | ok signSeed =>
                  simp only [h8] at h
                  cases h9 : web3.findProgramAddressSync stakingPoolSeeds mxeProgram with
                  | error e => simp [h9] at h
                  | ok staking =>
                    simp only [h9] at h
                    injection h with h
                    subst h
                    exact ⟨rfl, ⟨s2, h2, h3⟩, h4, h5, ⟨s6, rfl, h7⟩, h8, rfl⟩

/-! ## Facts about `deriveMxeAccounts` and the seed tags -/

theorem deriveMxeAccounts_ok (web3 : Web3) (mxeProgramId : PublicKey) (compDefOffset : Nat)
    (out : MxeAccounts) (h : deriveMxeAccounts web3 mxeProgramId compDefOffset = .ok out) :
    (∃ bump, web3.findProgramAddressSync [Buffer.from "mxe"] mxeProgramId
      = .ok (out.mxeAccount, bump)) ∧
    (∃ bump, web3.findProgramAddressSync (deriveMxeAccounts.compDefSeeds compDefOffset)
      mxeProgramId = .ok (out.compDefAccount, bump)) ∧
    (∃ bump, web3.findProgramAddressSync [Buffer.from "mempool"] mxeProgramId
      = .ok (out.mempoolAccount, bump)) ∧
    (∃ bump, web3.findProgramAddressSync [Buffer.from "cluster"] mxeProgramId
      = .ok (out.clusterAccount, bump)) := by
  unfold deriveMxeAccounts at h
  simp only [bind, Except.bind, pure, Except.pure, deriveMxeAccounts.mxeSeeds,
    deriveMxeAccounts.mempoolSeeds, deriveMxeAccounts.clusterSeeds] at h
  cases h1 : web3.findProgramAddressSync [Buffer.from "mxe"] mxeProgramId with
  | error e => simp [h1] at h
  | ok mxe =>
    simp only [h1] at h
    cases h2 : web3.findProgramAddressSync (deriveMxeAccounts.compDefSeeds compDefOffset)
        mxeProgramId with
    | error e => simp [h2] at h
    | ok compDef =>
      simp only [h2] at h
      cases h3 : web3.findProgramAddressSync [Buffer.from "mempool"] mxeProgramId with
      | error e => simp [h3] at h
      | ok mempool =>
        simp only [h3] at h
        cases h4 : web3.findProgramAddressSync [Buffer.from "cluster"] mxeProgramId with
        | error e => simp [h4] at h
        | ok cluster =>
          simp only [h4] at h
          injection h with h
          subst h
          exact ⟨⟨mxe.2, rfl⟩, ⟨compDef.2, rfl⟩, ⟨mempool.2, rfl⟩, ⟨cluster.2, rfl⟩⟩

theorem mempoolSeeds_ne (mxeAccount : PublicKey) :
    deriveMxeAccounts.mempoolSeeds ≠ GetMxeAddresses.mempoolSeeds mxeAccount := by
  intro h
  have hl := congrArg List.length h
  simp [deriveMxeAccounts.mempoolSeeds, GetMxeAddresses.mempoolSeeds] at hl

theorem fromArray_singleton_eq_iff (a b : Nat) :
    Buffer.fromArray [a] = Buffer.fromArray [b] ↔ a % 256 = b % 256 := by
  simp [Buffer.fromArray, Fin.ofNat, Fin.ext_iff]

theorem ne_of_take_ne {α : Type} (n : Nat) {l1 l2 : List α} (h : l1.take n ≠ l2.take n) :
    l1 ≠ l2 := fun heq => h (by rw [heq])

theorem tag_mxe : Buffer.from "mxe" = [109, 120, 101] := by decide

theorem tag_comp_def : Buffer.from "comp_def" = [99, 111, 109, 112, 95, 100, 101, 102] := by
  decide

theorem tag_mempool : Buffer.from "mempool" = [109, 101, 109, 112, 111, 111, 108] := by decide

theorem tag_executing_pool : Buffer.from "executing_pool"
    = [101, 120, 101, 99, 117, 116, 105, 110, 103, 95, 112, 111, 111, 108] := by decide

theorem tag_cluster : Buffer.from "cluster" = [99, 108, 117, 115, 116, 101, 114] := by decide

theorem tag_sign_seed : Buffer.from "sign_seed"
    = [115, 105, 103, 110, 95, 115, 101, 101, 100] := by decide

theorem tag_staking_pool : Buffer.from "staking_pool"
    = [115, 116, 97, 107, 105, 110, 103, 95, 112, 111, 111, 108] := by decide

/-! ## Claims about `tests/helpers/mxe_crypto.ts` -/

/-- C1: for every non-negative integer `playerCount` and every `playerPublicKeys`
argument (absent, shorter or longer than `playerCount`), in every runtime,
`generateMultiPlayerEntropy` returns a list of exactly `playerCount` entries, each an
array of exactly 32 integers in the range 0..255. -/
theorem generateMultiPlayerEntropy_shape (playerCount : Nat)
    (playerPublicKeys : Option (List PublicKey)) (env : Env) :
    ∃ out env1, generateMultiPlayerEntropy playerCount playerPublicKeys env = .ok (out, env1) ∧
      out.length = playerCount ∧
      ∀ entry ∈ out, entry.length = 32 ∧ ∀ x ∈ entry, x < 256 := by
  obtain ⟨out, env1, h, hlen, hall⟩ :=
    loop_shape playerPublicKeys playerCount 0 [] env (by simp)
  exact ⟨out, env1, h, by simpa using hlen, hall⟩

/-- C2: mock encryption copies the plaintext verbatim: for every 32-byte `data`, every
optional owner and every runtime (hence whatever nonce is drawn), `encryptForMxe` returns
an envelope whose ciphertext equals `data`. -/
theorem encryptForMxe_ciphertext_verbatim (data : Uint8Array) (owner : Option PublicKey)
    (env : Env) (h : data.length = 32) :
    ∃ envelope env1, encryptForMxe data owner env = .ok (envelope, env1) ∧
      envelope.ciphertext = data := by
  refine ⟨_, _, encryptForMxe_eq data owner env, ?_⟩
  simp [h, List.take_of_length_le (le_of_eq h)]

/-- Witness of C2 on the bytes `0..31` in the Node fallback runtime. -/
theorem encryptForMxe_ciphertext_verbatim_witness :
    sampleData32.length = 32 ∧
    ∃ envelope env1, encryptForMxe sampleData32 (some (sampleKey 7)) sampleNodeEnv
        = .ok (envelope, env1) ∧ envelope.ciphertext = sampleData32 :=
  ⟨by decide,
   encryptForMxe_ciphertext_verbatim sampleData32 (some (sampleKey 7)) sampleNodeEnv (by decide)⟩

/-- C3: the envelope has fixed widths: for every input byte array of any length, every
owner and every runtime (whichever random-source branch is taken), `encryptForMxe`
returns an envelope with a 32-byte ciphertext and a 16-byte nonce. -/
theorem encryptForMxe_fixed_widths (data : Uint8Array) (owner : Option PublicKey)
    (env : Env) :
    ∃ envelope env1, encryptForMxe data owner env = .ok (envelope, env1) ∧
      envelope.ciphertext.length = 32 ∧ envelope.nonce.length = 16 := by
  exact ⟨_, _, encryptForMxe_eq data owner env, padded_length data, draw_length _ 16⟩

/-- C4: round trip under the mock cipher: for every 32-byte `x`, every owner, and every
nonce and secret key passed to decryption, decrypting the ciphertext of
`encryptForMxe x owner` gives back `x`. -/
theorem mock_round_trip (x : Uint8Array) (owner : Option PublicKey) (env : Env)
    (nonce secretKey : Uint8Array) (env2 : Env) (h : x.length = 32) :
    ∃ envelope env1, encryptForMxe x owner env = .ok (envelope, env1) ∧
      (decryptFromMxe envelope.ciphertext nonce secretKey env2).1 = x := by
  refine ⟨_, _, encryptForMxe_eq x owner env, ?_⟩
  simp [decryptFromMxe, h, List.take_of_length_le (le_of_eq h)]

/-- Witness of C4 on the bytes `0..31`, decrypted with an empty nonce and key. -/
theorem mock_round_trip_witness :
    sampleData32.length = 32 ∧
    ∃ envelope env1, encryptForMxe sampleData32 none sampleBrowserEnv = .ok (envelope, env1) ∧
      (decryptFromMxe envelope.ciphertext [] [] sampleGlobalEnv).1 = sampleData32 :=
  ⟨by decide, mock_round_trip sampleData32 none sampleBrowserEnv [] [] sampleGlobalEnv (by decide)⟩

/-- C5: `generatePlayerEntropy` returns exactly 32 bytes in each of its three branches,
and in each branch position `i` of the result holds byte `i` of the random source of that
branch (`window.crypto`, else `global.crypto`, else Node `crypto.randomBytes`). -/
theorem generatePlayerEntropy_fills_32 (env : Env) :
    ∃ out env1, generatePlayerEntropy env = .ok (out, env1) ∧ out.length = 32 ∧
      (∀ w, env.windowCrypto = some w → out = (List.range 32).map w) ∧
      (∀ g, env.windowCrypto = none → env.globalCrypto = some g →
        out = (List.range 32).map g) ∧
      (env.windowCrypto = none → env.globalCrypto = none →
        out = (List.range 32).map env.nodeCrypto) := by
  refine ⟨_, _, generatePlayerEntropy_eq env, draw_length _ 32, ?_, ?_, ?_⟩
  · intro w hw
    simp [Env.activeSource, hw, RandomSource.draw]
  · intro g hw hg
    simp [Env.activeSource, hw, hg, RandomSource.draw]
  · intro hw hg
    simp [Env.activeSource, hw, hg, RandomSource.draw]

/-- Witness of C5 in a browser, a `global.crypto` and a Node fallback runtime. -/
theorem generatePlayerEntropy_fills_32_witness :
    (∃ out env1, generatePlayerEntropy sampleBrowserEnv = .ok (out, env1) ∧ out.length = 32 ∧
      out = (List.range 32).map (fun i => Fin.ofNat (11 * i + 2))) ∧
    (∃ out env1, generatePlayerEntropy sampleGlobalEnv = .ok (out, env1) ∧ out.length = 32 ∧
      out = (List.range 32).map (fun i => Fin.ofNat (5 * i + 1))) ∧
    (∃ out env1, generatePlayerEntropy sampleNodeEnv = .ok (out, env1) ∧ out.length = 32 ∧
      out = (List.range 32).map (fun i => Fin.ofNat (7 * i + 3))) := by
  refine ⟨?_, ?_, ?_⟩
  · obtain ⟨out, env1, h, hl, hw, _, _⟩ := generatePlayerEntropy_fills_32 sampleBrowserEnv
    exact ⟨out, env1, h, hl, hw _ rfl⟩
  · obtain ⟨out, env1, h, hl, _, hg, _⟩ := generatePlayerEntropy_fills_32 sampleGlobalEnv
    exact ⟨out, env1, h, hl, hg _ rfl rfl⟩
  · obtain ⟨out, env1, h, hl, _, _, hn⟩ := generatePlayerEntropy_fills_32 sampleNodeEnv
    exact ⟨out, env1, h, hl, hn rfl rfl⟩

/-- C6: `preparePlayerEntropyForProgram` returns an array of exactly 32 integers in
0..255 for every entropy argument (absent, or a byte array of any length), every optional
key and every runtime; when the entropy is a 32-byte array, the result lists exactly its
bytes in order. -/
theorem preparePlayerEntropyForProgram_spec (entropy : Option Uint8Array)
    (playerPublicKey : Option PublicKey) (env : Env) :
    ∃ out env1, preparePlayerEntropyForProgram entropy playerPublicKey env = .ok (out, env1) ∧
      out.length = 32 ∧ (∀ x ∈ out, x < 256) ∧
      (∀ e, entropy = some e → e.length = 32 → out = e.map Fin.val) := by
  obtain ⟨data, env1, h, hdata⟩ := preparePlayerEntropyForProgram_eq entropy playerPublicKey env
  refine ⟨_, _, h, by rw [from_length, padded_length], from_lt _, ?_⟩
  intro e he hlen
  rw [hdata e he]
  simp [Array.from, hlen, List.take_of_length_le (le_of_eq hlen)]

/-- Witness of C6 on the bytes `0..31`. -/
theorem preparePlayerEntropyForProgram_spec_witness :
    ∃ out env1, preparePlayerEntropyForProgram (some sampleData32) none sampleNodeEnv
        = .ok (out, env1) ∧ out.length = 32 ∧ (∀ x ∈ out, x < 256) ∧ out = List.range 32 := by
  obtain ⟨out, env1, h, hl, hlt, hcopy⟩ :=
    preparePlayerEntropyForProgram_spec (some sampleData32) none sampleNodeEnv
  refine ⟨out, env1, h, hl, hlt, ?_⟩
  rw [hcopy sampleData32 rfl (by decide)]
  decide

/-! ## Claims about the derivation scripts -/

/-- C7 (the script against the claim): whatever the MXE account is,
`scripts/get-mxe-addresses.ts` passes the seeds `["comp_def", mxeAccount, 01 00 00 00]`
to the computation-definition derivation, and this list is never the list
`["ComputationDefinitionAccount", MXE_PROGRAM, u32le(COMP_DEF_OFFSET)]`: the tags differ
(8 bytes against 28). -/
theorem getMxeAddresses_compDef_seeds_mismatch :
    ∃ mxeProgram, GetMxeAddresses.MXE_PROGRAM = .ok mxeProgram ∧
      ∀ mxeAccount : PublicKey,
        GetMxeAddresses.compDefSeeds mxeAccount GetMxeAddresses.COMP_DEF_OFFSET
          = .ok [Buffer.from "comp_def", mxeAccount.toBuffer, [1, 0, 0, 0]] ∧
        (Buffer.from "comp_def").length = 8 ∧
        (Buffer.from "ComputationDefinitionAccount").length = 28 ∧
        [Buffer.from "comp_def", mxeAccount.toBuffer, [1, 0, 0, 0]]
          ≠ [Buffer.from "ComputationDefinitionAccount", mxeProgram.toBuffer,
              littleEndian GetMxeAddresses.COMP_DEF_OFFSET 4] := by
  obtain ⟨mxeProgram, hm⟩ := exists_ok_of_isOk
    (show GetMxeAddresses.MXE_PROGRAM.isOk = true by decide)
  refine ⟨mxeProgram, hm, fun mxeAccount => ⟨?_, by decide, by decide, ?_⟩⟩
  · have h4 : BN.toArrayLike GetMxeAddresses.COMP_DEF_OFFSET 4 = .ok [1, 0, 0, 0] := by decide
    simp only [GetMxeAddresses.compDefSeeds, h4]
  · intro h
    injection h with h1 _
    exact absurd h1 (by decide)

/-- C8 (the script against the claim): `deriveCompDefPDA` hands `findProgramAddressSync`
the four seeds `["comp_def", mxeAccount, decimal ASCII of clusterOffset, decimal ASCII of
compDefOffset]`, so the derivation input depends on the cluster offset: for the script's
own `MXE_ACCOUNT` and `compDefOffset = 1` the seed lists for
`OLD_CLUSTER_OFFSET = 1078779259` and `NEW_CLUSTER_OFFSET = 2326510165` differ in their
third seed ("1078779259" against "2326510165"), and so do the seed lists of any two
different safe-integer cluster offsets. -/
theorem deriveCompDefPDA_seeds_differ_for_historical_offsets :
    CheckCompDefAddresses.MXE_ACCOUNT = .ok CheckCompDefAddresses.mxeAccountKey ∧
    CheckCompDefAddresses.OLD_CLUSTER_OFFSET = 1078779259 ∧
    CheckCompDefAddresses.NEW_CLUSTER_OFFSET = 2326510165 ∧
    CheckCompDefAddresses.deriveCompDefPDA.seeds CheckCompDefAddresses.mxeAccountKey
        CheckCompDefAddresses.OLD_CLUSTER_OFFSET 1
      = [Buffer.from "comp_def", CheckCompDefAddresses.mxeAccountKey.toBuffer,
          Buffer.from "1078779259", Buffer.from "1"] ∧
    CheckCompDefAddresses.deriveCompDefPDA.seeds CheckCompDefAddresses.mxeAccountKey
        CheckCompDefAddresses.NEW_CLUSTER_OFFSET 1
      = [Buffer.from "comp_def", CheckCompDefAddresses.mxeAccountKey.toBuffer,
          Buffer.from "2326510165", Buffer.from "1"] ∧
    CheckCompDefAddresses.deriveCompDefPDA.seeds CheckCompDefAddresses.mxeAccountKey
        CheckCompDefAddresses.OLD_CLUSTER_OFFSET 1
      ≠ CheckCompDefAddresses.deriveCompDefPDA.seeds CheckCompDefAddresses.mxeAccountKey
        CheckCompDefAddresses.NEW_CLUSTER_OFFSET 1 ∧
    (∀ (web3 : Web3) (mxeProgramId mxeAccount : PublicKey) (clusterOffset compDefOffset : Nat),
      CheckCompDefAddresses.deriveCompDefPDA web3 mxeProgramId mxeAccount clusterOffset
          compDefOffset
        = (web3.findProgramAddressSync
            [Buffer.from "comp_def", mxeAccount.toBuffer,
             Buffer.from (Number.toString clusterOffset),
             Buffer.from (Number.toString compDefOffset)] mxeProgramId).map
            (fun r => (r.1.toBase58, r.2))) ∧
    (∀ (mxeAccount : PublicKey) (c1 c2 compDefOffset : Nat),
      c1 < 2 ^ 53 → c2 < 2 ^ 53 → c1 ≠ c2 →
      CheckCompDefAddresses.deriveCompDefPDA.seeds mxeAccount c1 compDefOffset
        ≠ CheckCompDefAddresses.deriveCompDefPDA.seeds mxeAccount c2 compDefOffset) := by
  refine ⟨by decide, rfl, rfl, by decide, by decide, by decide, ?_, ?_⟩
  · intro web3 mxeProgramId mxeAccount clusterOffset compDefOffset
    unfold CheckCompDefAddresses.deriveCompDefPDA CheckCompDefAddresses.deriveCompDefPDA.seeds
    cases web3.findProgramAddressSync
        [Buffer.from "comp_def", mxeAccount.toBuffer,
         Buffer.from (Number.toString clusterOffset),
         Buffer.from (Number.toString compDefOffset)] mxeProgramId with
    | error e => rfl
    | ok r => rfl
  · intro mxeAccount c1 c2 compDefOffset _ _ hne h
    simp only [CheckCompDefAddresses.deriveCompDefPDA.seeds, List.cons.injEq, true_and,
      and_true] at h
    exact hne (from_toString_injective c1 c2 h)

/-- Witness of C8 at two small cluster offsets, 5 and 7, with `compDefOffset = 2`. -/
theorem deriveCompDefPDA_seeds_differ_witness :
    (5 : Nat) < 2 ^ 53 ∧ (7 : Nat) < 2 ^ 53 ∧ (5 : Nat) ≠ 7 ∧
    CheckCompDefAddresses.deriveCompDefPDA.seeds (sampleKey 3) 5 2
      ≠ CheckCompDefAddresses.deriveCompDefPDA.seeds (sampleKey 3) 7 2 :=
  ⟨by decide, by decide, by decide,
   deriveCompDefPDA_seeds_differ_for_historical_offsets.2.2.2.2.2.2.2 (sampleKey 3) 5 7 2
     (by decide) (by decide) (by decide)⟩

/-- C9: in `scripts/get-mxe-addresses.ts`, whenever the script's derivations return, the
mempool, executing-pool and sign-seed accounts are derived under `MXE_PROGRAM` from
exactly two seeds, the ASCII tag followed by the 32 bytes of the MXE account that the
derivation `["mxe", PROGRAM_ID]` returned; hence two runs whose MXE accounts coincide
get the same three accounts, whatever their `PROGRAM_ID`s and offsets. -/
theorem pool_seeds_spec (web3 : Web3) (programId mxeProgram : PublicKey)
    (clusterOffset compDefOffset : Nat) (out : GetMxeAddresses.Accounts)
    (programId2 : PublicKey) (clusterOffset2 compDefOffset2 : Nat)
    (out2 : GetMxeAddresses.Accounts)
    (h : GetMxeAddresses.deriveAccounts web3 programId mxeProgram clusterOffset compDefOffset
      = .ok out)
    (h2 : GetMxeAddresses.deriveAccounts web3 programId2 mxeProgram clusterOffset2
      compDefOffset2 = .ok out2) :
    web3.findProgramAddressSync [Buffer.from "mxe", programId.toBuffer] mxeProgram
      = .ok out.mxeAccount ∧
    out.mxeAccount.1.toBuffer.length = 32 ∧
    web3.findProgramAddressSync [Buffer.from "mempool", out.mxeAccount.1.toBuffer] mxeProgram
      = .ok out.mempool ∧
    web3.findProgramAddressSync [Buffer.from "executing_pool", out.mxeAccount.1.toBuffer]
      mxeProgram = .ok out.executingPool ∧
    web3.findProgramAddressSync [Buffer.from "sign_seed", out.mxeAccount.1.toBuffer]
      mxeProgram = .ok out.signSeed ∧
    (out.mxeAccount.1 = out2.mxeAccount.1 →
      out.mempool = out2.mempool ∧ out.executingPool = out2.executingPool ∧
      out.signSeed = out2.signSeed) := by
  obtain ⟨a1, _, a3, a4, _, a6, _⟩ :=
    deriveAccounts_ok web3 programId mxeProgram clusterOffset compDefOffset out h
  obtain ⟨_, _, b3, b4, _, b6, _⟩ :=
    deriveAccounts_ok web3 programId2 mxeProgram clusterOffset2 compDefOffset2 out2 h2
  refine ⟨a1, out.mxeAccount.1.size_eq, a3, a4, a6, ?_⟩
  intro hm
  rw [hm] at a3 a4 a6
  rw [b3] at a3
  rw [b4] at a4
  rw [b6] at a6
  exact ⟨(Except.ok.inj a3).symm, (Except.ok.inj a4).symm, (Except.ok.inj a6).symm⟩

/-- Witness of C9: two runs under the stand-in derivation with the same `PROGRAM_ID`
and different offsets. -/
theorem pool_seeds_spec_witness :
    ∃ out out2,
      GetMxeAddresses.deriveAccounts sampleWeb3 (sampleKey 1) (sampleKey 2) 1078779259 1
        = .ok out ∧
      GetMxeAddresses.deriveAccounts sampleWeb3 (sampleKey 1) (sampleKey 2) 2326510165 0
        = .ok out2 ∧
      sampleWeb3.findProgramAddressSync [Buffer.from "mempool", out.mxeAccount.1.toBuffer]
        (sampleKey 2) = .ok out.mempool ∧
      out.mempool = out2.mempool := by
  obtain ⟨out, h⟩ := exists_ok_of_isOk (show (GetMxeAddresses.deriveAccounts sampleWeb3
    (sampleKey 1) (sampleKey 2) 1078779259 1).isOk = true by decide)
  obtain ⟨out2, h2⟩ := exists_ok_of_isOk (show (GetMxeAddresses.deriveAccounts sampleWeb3
    (sampleKey 1) (sampleKey 2) 2326510165 0).isOk = true by decide)
  obtain ⟨a1, _, a3, _, _, hsame⟩ := pool_seeds_spec sampleWeb3 (sampleKey 1) (sampleKey 2)
    1078779259 1 out (sampleKey 1) 2326510165 0 out2 h h2
  obtain ⟨b1, _⟩ := pool_seeds_spec sampleWeb3 (sampleKey 1) (sampleKey 2)
    2326510165 0 out2 (sampleKey 1) 2326510165 0 out2 h2 h2
  have hm : out.mxeAccount = out2.mxeAccount := Except.ok.inj (a1.symm.trans b1)
  exact ⟨out, out2, h, h2, a3, (hsame (congrArg Prod.fst hm)).1⟩

/-- C10: in `scripts/get-mxe-addresses.ts`, for every `CLUSTER_OFFSET` below `2^64`,
whenever the script's derivations return, the cluster account is derived from exactly two
seeds, ASCII "cluster" followed by the 8-byte little-endian encoding of the offset, which
reads back as the offset; for the shipped `CLUSTER_OFFSET = 1078779259` the second seed is
`7B DD 4C 40 00 00 00 00`. -/
theorem cluster_seeds_spec (web3 : Web3) (programId mxeProgram : PublicKey)
    (clusterOffset compDefOffset : Nat) (out : GetMxeAddresses.Accounts)
    (hc : clusterOffset < 2 ^ 64)
    (h : GetMxeAddresses.deriveAccounts web3 programId mxeProgram clusterOffset compDefOffset
      = .ok out) :
    web3.findProgramAddressSync [Buffer.from "cluster", littleEndian clusterOffset 8]
      mxeProgram = .ok out.cluster ∧
    Buffer.from "cluster" = [99, 108, 117, 115, 116, 101, 114] ∧
    (littleEndian clusterOffset 8).length = 8 ∧
    readLittleEndian (littleEndian clusterOffset 8) = clusterOffset ∧
    GetMxeAddresses.CLUSTER_OFFSET = 1078779259 ∧
    littleEndian GetMxeAddresses.CLUSTER_OFFSET 8
      = [0x7B, 0xDD, 0x4C, 0x40, 0x00, 0x00, 0x00, 0x00] ∧
    readLittleEndian [0x7B, 0xDD, 0x4C, 0x40, 0x00, 0x00, 0x00, 0x00] = 1078779259 := by
  have hc8 : clusterOffset < 256 ^ 8 := by norm_num at hc ⊢; exact hc
  obtain ⟨_, _, _, _, ⟨seeds, hs, hfind⟩, _, _⟩ :=
    deriveAccounts_ok web3 programId mxeProgram clusterOffset compDefOffset out h
  rw [(clusterSeeds_ok clusterOffset seeds hs).1] at hfind
  refine ⟨hfind, by decide, littleEndian_length _ _, ?_, rfl, by decide, by decide⟩
  rw [readLittleEndian_littleEndian, Nat.mod_eq_of_lt hc8]

/-- Witness of C10: the shipped offset under the stand-in derivation. -/
theorem cluster_seeds_spec_witness :
    ∃ out, GetMxeAddresses.deriveAccounts sampleWeb3 (sampleKey 1) (sampleKey 2)
        GetMxeAddresses.CLUSTER_OFFSET GetMxeAddresses.COMP_DEF_OFFSET = .ok out ∧
      sampleWeb3.findProgramAddressSync
        [Buffer.from "cluster", [0x7B, 0xDD, 0x4C, 0x40, 0x00, 0x00, 0x00, 0x00]] (sampleKey 2)
        = .ok out.cluster := by
  obtain ⟨out, h⟩ := exists_ok_of_isOk (show (GetMxeAddresses.deriveAccounts sampleWeb3
    (sampleKey 1) (sampleKey 2) GetMxeAddresses.CLUSTER_OFFSET
    GetMxeAddresses.COMP_DEF_OFFSET).isOk = true by decide)
  obtain ⟨hfind, _, _, _, _, hbytes, _⟩ := cluster_seeds_spec sampleWeb3 (sampleKey 1)
    (sampleKey 2) GetMxeAddresses.CLUSTER_OFFSET GetMxeAddresses.COMP_DEF_OFFSET out
    (by decide) h
  rw [hbytes] at hfind
  exact ⟨out, h, hfind⟩

/-! ## Claims about `deriveMxeAccounts`, domain separation and the comp-def variants -/

/-- C11 (the helper at the failing input): the mempool seed list of `deriveMxeAccounts`
is the single seed `"mempool"`; run under the stand-in derivation for the MXE program key, it differs
from the two-seed list `["mempool", mxeAccount]` that `scripts/get-mxe-addresses.ts`
builds for the MXE account the helper itself derived. -/
theorem deriveMxeAccounts_mempool_single_seed :
    deriveMxeAccounts.mempoolSeeds = [[109, 101, 109, 112, 111, 111, 108]] ∧
    deriveMxeAccounts.mempoolSeeds.length = 1 ∧
    ∃ out, deriveMxeAccounts sampleWeb3 mxeProgramKey 1 = .ok out ∧
      (GetMxeAddresses.mempoolSeeds out.mxeAccount).length = 2 ∧
      deriveMxeAccounts.mempoolSeeds ≠ GetMxeAddresses.mempoolSeeds out.mxeAccount := by
  refine ⟨by decide, by decide, ?_⟩
  obtain ⟨out, h⟩ := exists_ok_of_isOk
    (show (deriveMxeAccounts sampleWeb3 mxeProgramKey 1).isOk = true by decide)
  exact ⟨out, h, rfl, mempoolSeeds_ne out.mxeAccount⟩

/-- C11 (the helper against the claim): whenever `deriveMxeAccounts` returns, its
`mempoolAccount` is the address derived under `mxeProgramId` from the single seed ASCII
"mempool"; the MXE account is missing from the seeds, so this input differs from the
two-seed mempool input `["mempool", mxeAccount]` of `scripts/get-mxe-addresses.ts` for
every MXE account. -/
theorem deriveMxeAccounts_mempool_spec (web3 : Web3) (mxeProgramId : PublicKey)
    (compDefOffset : Nat) (out : MxeAccounts)
    (h : deriveMxeAccounts web3 mxeProgramId compDefOffset = .ok out) :
    (∃ bump, web3.findProgramAddressSync [Buffer.from "mempool"] mxeProgramId
      = .ok (out.mempoolAccount, bump)) ∧
    ([Buffer.from "mempool"] : List Uint8Array).length = 1 ∧
    ∀ mxeAccount : PublicKey,
      GetMxeAddresses.mempoolSeeds mxeAccount = [Buffer.from "mempool", mxeAccount.toBuffer] ∧
      [Buffer.from "mempool"] ≠ GetMxeAddresses.mempoolSeeds mxeAccount := by
  obtain ⟨_, _, hm, _⟩ := deriveMxeAccounts_ok web3 mxeProgramId compDefOffset out h
  exact ⟨hm, rfl, fun mxeAccount => ⟨rfl, mempoolSeeds_ne mxeAccount⟩⟩

/-- Witness of C11 under the stand-in derivation. -/
theorem deriveMxeAccounts_mempool_spec_witness :
    ∃ out, deriveMxeAccounts sampleWeb3 mxeProgramKey 1 = .ok out ∧
      ∃ bump, sampleWeb3.findProgramAddressSync [Buffer.from "mempool"] mxeProgramKey
        = .ok (out.mempoolAccount, bump) := by
  obtain ⟨out, h⟩ := exists_ok_of_isOk
    (show (deriveMxeAccounts sampleWeb3 mxeProgramKey 1).isOk = true by decide)
  exact ⟨out, h, (deriveMxeAccounts_mempool_spec sampleWeb3 mxeProgramKey 1 out h).1⟩

/-- C12: domain separation of the static account graph of `scripts/get-mxe-addresses.ts`:
for every 32-byte `PROGRAM_ID`, every 32-byte MXE account address, every
`COMP_DEF_OFFSET` below `2^32` and every `CLUSTER_OFFSET` the script can encode (a number
below `2^53`, which fits the 8-byte width; from `2^53` on the `BN` constructor throws and
no cluster seeds exist), the seven seed lists (mxe, comp_def, mempool, executing_pool,
cluster, sign_seed, staking_pool), each concatenated in order, are pairwise distinct byte
sequences. -/
theorem seed_domains_pairwise_distinct (programId mxeAccount : PublicKey)
    (clusterOffset compDefOffset : Nat)
    (hc : clusterOffset < 2 ^ 53) (hd : compDefOffset < 2 ^ 32) :
    ∃ compDef cluster,
      GetMxeAddresses.compDefSeeds mxeAccount compDefOffset = .ok compDef ∧
      GetMxeAddresses.clusterSeeds clusterOffset = .ok cluster ∧
      List.Pairwise (fun a b => a ≠ b)
        [(GetMxeAddresses.mxeSeeds programId).flatten,
         compDef.flatten,
         (GetMxeAddresses.mempoolSeeds mxeAccount).flatten,
         (GetMxeAddresses.executingPoolSeeds mxeAccount).flatten,
         cluster.flatten,
         (GetMxeAddresses.signSeedSeeds mxeAccount).flatten,
         GetMxeAddresses.stakingPoolSeeds.flatten] := by
  have hc8 : clusterOffset < 256 ^ 8 := by norm_num at hc ⊢; omega
  have hd4 : compDefOffset < 256 ^ 4 := by norm_num at hd ⊢; exact hd
  have hd53 : compDefOffset < 2 ^ 53 := by norm_num at hd ⊢; omega
  refine ⟨[Buffer.from "comp_def", mxeAccount.toBuffer, littleEndian compDefOffset 4],
    [Buffer.from "cluster", littleEndian clusterOffset 8], ?_, ?_, ?_⟩
  · simp only [GetMxeAddresses.compDefSeeds,
      toArrayLike_of_lt compDefOffset 4 (by norm_num) hd4 hd53]
  · simp only [GetMxeAddresses.clusterSeeds,
      toArrayLike_of_lt clusterOffset 8 (by norm_num) hc8 hc]
  · simp only [GetMxeAddresses.mxeSeeds, GetMxeAddresses.mempoolSeeds,
      GetMxeAddresses.executingPoolSeeds, GetMxeAddresses.signSeedSeeds,
      GetMxeAddresses.stakingPoolSeeds, tag_mxe, tag_comp_def, tag_mempool,
      tag_executing_pool, tag_cluster, tag_sign_seed, tag_staking_pool]
    apply List.Pairwise.of_map (List.take 2) (fun a b h => ne_of_take_ne 2 h)
    simp [List.flatten]

/-- Witness of C12 for the shipped offsets. -/
theorem seed_domains_pairwise_distinct_witness :
    ∃ compDef cluster,
      GetMxeAddresses.compDefSeeds CheckCompDefAddresses.mxeAccountKey 1 = .ok compDef ∧
      GetMxeAddresses.clusterSeeds 1078779259 = .ok cluster ∧
      List.Pairwise (fun a b => a ≠ b)
        [(GetMxeAddresses.mxeSeeds (sampleKey 1)).flatten,
         compDef.flatten,
         (GetMxeAddresses.mempoolSeeds CheckCompDefAddresses.mxeAccountKey).flatten,
         (GetMxeAddresses.executingPoolSeeds CheckCompDefAddresses.mxeAccountKey).flatten,
         cluster.flatten,
         (GetMxeAddresses.signSeedSeeds CheckCompDefAddresses.mxeAccountKey).flatten,
         GetMxeAddresses.stakingPoolSeeds.flatten] :=
  seed_domains_pairwise_distinct (sampleKey 1) CheckCompDefAddresses.mxeAccountKey
    1078779259 1 (by decide) (by decide)

/-- C13: `init_comp_def.js` derives the computation-definition account from the same
input as `derive_comp_def_correct.js`: both pass the seeds
`["ComputationDefinitionAccount", the 32 bytes of MXE_PROGRAM, 01 00 00 00]` and the owner
`MXE_PROGRAM`, so for every implementation of the derivation both compute the same
address and bump. -/
theorem init_comp_def_matches_correct_variant (web3 : Web3) :
    InitCompDef.MXE_PROGRAM = .ok mxeProgramKey ∧
    DeriveCompDefCorrect.MXE_PROGRAM = .ok mxeProgramKey ∧
    InitCompDef.compDefSeeds
      = .ok [Buffer.from "ComputationDefinitionAccount", mxeProgramKey.toBuffer, [1, 0, 0, 0]] ∧
    DeriveCompDefCorrect.seeds
      = .ok [Buffer.from "ComputationDefinitionAccount", mxeProgramKey.toBuffer, [1, 0, 0, 0]] ∧
    littleEndian InitCompDef.COMP_DEF_OFFSET 4 = [1, 0, 0, 0] ∧
    InitCompDef.deriveCompDef web3 = DeriveCompDefCorrect.main web3 ∧
    InitCompDef.deriveCompDef web3 = web3.findProgramAddressSync
      [Buffer.from "ComputationDefinitionAccount", mxeProgramKey.toBuffer, [1, 0, 0, 0]]
      mxeProgramKey := by
  have hm : InitCompDef.MXE_PROGRAM = .ok mxeProgramKey := by decide
  have hs : InitCompDef.compDefSeeds
      = .ok [Buffer.from "ComputationDefinitionAccount", mxeProgramKey.toBuffer, [1, 0, 0, 0]] := by
    decide
  have hm2 : DeriveCompDefCorrect.MXE_PROGRAM = .ok mxeProgramKey := by decide
  have hs2 : DeriveCompDefCorrect.seeds
      = .ok [Buffer.from "ComputationDefinitionAccount", mxeProgramKey.toBuffer, [1, 0, 0, 0]] := by
    decide
  refine ⟨hm, hm2, hs, hs2, by decide, ?_, ?_⟩
  · simp only [InitCompDef.deriveCompDef, DeriveCompDefCorrect.main, hm, hm2, hs, hs2]
  · simp only [InitCompDef.deriveCompDef, hm, hs, bind, Except.bind]

/-- C14: mode selection is three-way on the number of supplied account-graph members:
`Real` exactly when all eight are present, `IncompleteAccountGraph` exactly when between
one and seven are present (never `Mock` then), `Mock` exactly when none is present. -/
theorem selectMode_three_way (g : SuppliedAccountGraph) :
    (selectMode g = .ok .real ↔ g.presentCount = 8) ∧
    (selectMode g = .error .incompleteAccountGraph ↔
      1 ≤ g.presentCount ∧ g.presentCount ≤ 7) ∧
    (selectMode g = .ok .mock ↔ g.presentCount = 0) ∧
    (1 ≤ g.presentCount ∧ g.presentCount ≤ 7 → selectMode g ≠ .ok .mock) := by
  rcases g with ⟨a, b, c, d, e, f, x, y⟩
  cases a <;> cases b <;> cases c <;> cases d <;> cases e <;> cases f <;> cases x <;> cases y <;>
    simp [selectMode, SuppliedAccountGraph.members, SuppliedAccountGraph.presentCount]

/-- Witness of C14: a graph with only the MXE account is rejected, the empty graph
selects `Mock`, the full graph selects `Real`. -/
theorem selectMode_three_way_witness :
    selectMode ⟨some mxeProgramKey, none, none, none, none, none, none, none⟩
      = .error .incompleteAccountGraph ∧
    selectMode ⟨none, none, none, none, none, none, none, none⟩ = .ok .mock ∧
    selectMode ⟨some mxeProgramKey, some mxeProgramKey, some mxeProgramKey, some mxeProgramKey,
      some mxeProgramKey, some mxeProgramKey, some mxeProgramKey, some mxeProgramKey⟩
      = .ok .real :=
  ⟨(selectMode_three_way ⟨some mxeProgramKey, none, none, none, none, none, none, none⟩).2.1.mpr
      (by decide),
   (selectMode_three_way ⟨none, none, none, none, none, none, none, none⟩).2.2.1.mpr (by decide),
   (selectMode_three_way ⟨some mxeProgramKey, some mxeProgramKey, some mxeProgramKey,
      some mxeProgramKey, some mxeProgramKey, some mxeProgramKey, some mxeProgramKey,
      some mxeProgramKey⟩).1.mpr (by decide)⟩

/-! ## Claims about the mock scenario, the mock cipher and the instruction data -/

/-- C15 (the test against the claim): the `playerEntropy` that `test_mock_mode.ts` passes
to `startGame` has exactly two values of exactly 32 bytes each, and both are the same 32
zero bytes. -/
theorem playerEntropy_two_equal_zero_arrays :
    TestMockMode.playerEntropy = [List.replicate 32 0, List.replicate 32 0] ∧
    TestMockMode.playerEntropy.length = 2 ∧
    (∀ entry ∈ TestMockMode.playerEntropy, entry.length = 32) ∧
    TestMockMode.playerEntropy[0]? = TestMockMode.playerEntropy[1]? := by
  decide

/-- C16: `encryptForMxe` is total and normalises the length of its input: for every byte
array, owner and runtime it returns; data shorter than 32 bytes gives the data followed
by zero bytes up to length 32 (32 zero bytes for empty data); data longer than 32 bytes
gives its first 32 bytes, whatever follows them. -/
theorem encryptForMxe_total_normalises (data : Uint8Array) (owner : Option PublicKey)
    (env : Env) :
    ∃ envelope env1, encryptForMxe data owner env = .ok (envelope, env1) ∧
      (data.length < 32 →
        envelope.ciphertext = data ++ List.replicate (32 - data.length) 0) ∧
      (data = [] → envelope.ciphertext = List.replicate 32 0) ∧
      (32 < data.length → envelope.ciphertext = data.take 32) ∧
      (∀ head tail : Uint8Array, data = head ++ tail → head.length = 32 →
        envelope.ciphertext = head) := by
  refine ⟨_, _, encryptForMxe_eq data owner env, ?_, ?_, ?_, ?_⟩
  · intro h
    have h1 : min 32 data.length = data.length := by omega
    simp only [h1, List.take_of_length_le (le_of_lt h)]
  · intro h
    subst h
    simp
  · intro h
    have h1 : min 32 data.length = 32 := by omega
    simp [h1]
  · intro head tail hd hlen
    subst hd
    simp [hlen, List.take_append_of_le_length (le_of_eq hlen.symm),
      List.take_of_length_le (le_of_eq hlen)]

/-- Witness of C16: a 3-byte input is padded with 29 zero bytes, the empty input gives 32
zero bytes, and a 35-byte input is cut to its first 32 bytes. -/
theorem encryptForMxe_total_normalises_witness :
    (∃ envelope env1, encryptForMxe [1, 2, 3] none sampleNodeEnv = .ok (envelope, env1) ∧
      envelope.ciphertext = [1, 2, 3] ++ List.replicate 29 0) ∧
    (∃ envelope env1, encryptForMxe [] none sampleNodeEnv = .ok (envelope, env1) ∧
      envelope.ciphertext = List.replicate 32 0) ∧
    (∃ envelope env1, encryptForMxe (sampleData32 ++ [7, 8, 9]) none sampleNodeEnv
        = .ok (envelope, env1) ∧ envelope.ciphertext = sampleData32) := by
  refine ⟨?_, ?_, ?_⟩
  · obtain ⟨envelope, env1, h, hshort, _, _, _⟩ :=
      encryptForMxe_total_normalises [1, 2, 3] none sampleNodeEnv
    exact ⟨envelope, env1, h, hshort (by decide)⟩
  · obtain ⟨envelope, env1, h, _, hempty, _, _⟩ :=
      encryptForMxe_total_normalises [] none sampleNodeEnv
    exact ⟨envelope, env1, h, hempty rfl⟩
  · obtain ⟨envelope, env1, h, _, _, _, hcut⟩ :=
      encryptForMxe_total_normalises (sampleData32 ++ [7, 8, 9]) none sampleNodeEnv
    exact ⟨envelope, env1, h, hcut sampleData32 [7, 8, 9] rfl (by decide)⟩

/-- C17: in `deriveMxeAccounts` the computation-definition offset enters the seeds as the
single byte `compDefOffset mod 256`: whenever the helper returns, its `compDefAccount` is
the address `findProgramAddressSync` gives for the seeds `["comp_def", that byte]` under
`mxeProgramId`; the seed lists of two offsets are equal exactly when the offsets are
congruent modulo 256 (so they differ for distinct offsets in 0..255), and two runs with
congruent offsets and the same program id return the same `compDefAccount`. -/
theorem deriveMxeAccounts_compDef_offset_mod_256 (web3 : Web3) (mxeProgramId : PublicKey)
    (a b : Nat) :
    (∀ outA, deriveMxeAccounts web3 mxeProgramId a = .ok outA →
      ∃ bump, web3.findProgramAddressSync
        [Buffer.from "comp_def", Buffer.fromArray [a]] mxeProgramId
          = .ok (outA.compDefAccount, bump)) ∧
    deriveMxeAccounts.compDefSeeds a = [Buffer.from "comp_def", Buffer.fromArray [a]] ∧
    (deriveMxeAccounts.compDefSeeds a).map (fun seed => seed.map Fin.val)
      = [[99, 111, 109, 112, 95, 100, 101, 102], [a % 256]] ∧
    (deriveMxeAccounts.compDefSeeds a = deriveMxeAccounts.compDefSeeds b ↔ a % 256 = b % 256) ∧
    (a % 256 = b % 256 → ∀ outA outB,
      deriveMxeAccounts web3 mxeProgramId a = .ok outA →
      deriveMxeAccounts web3 mxeProgramId b = .ok outB →
      outA.compDefAccount = outB.compDefAccount) ∧
    (a < 256 → b < 256 → a ≠ b →
      deriveMxeAccounts.compDefSeeds a ≠ deriveMxeAccounts.compDefSeeds b) := by
  have hiff : deriveMxeAccounts.compDefSeeds a = deriveMxeAccounts.compDefSeeds b
      ↔ a % 256 = b % 256 := by
    simp only [deriveMxeAccounts.compDefSeeds, List.cons.injEq, true_and, and_true]
    exact fromArray_singleton_eq_iff a b
  refine ⟨?_, rfl, ?_, hiff, ?_, ?_⟩
  · intro outA hA
    exact (deriveMxeAccounts_ok web3 mxeProgramId a outA hA).2.1
  · have htag : (Buffer.from "comp_def").map Fin.val
        = [99, 111, 109, 112, 95, 100, 101, 102] := by decide
    simp [deriveMxeAccounts.compDefSeeds, htag, Buffer.fromArray, Fin.ofNat]
  · intro hab outA outB hA hB
    obtain ⟨_, ⟨bumpA, hcA⟩, _, _⟩ := deriveMxeAccounts_ok web3 mxeProgramId a outA hA
    obtain ⟨_, ⟨bumpB, hcB⟩, _, _⟩ := deriveMxeAccounts_ok web3 mxeProgramId b outB hB
    rw [hiff.mpr hab, hcB] at hcA
    exact (congrArg Prod.fst (Except.ok.inj hcA)).symm
  · intro ha hb hne hseeds
    have := hiff.mp hseeds
    omega

/-- Witness of C17: under the stand-in derivation the run with offset 257 returns the
account derived from `["comp_def", 01]`, offsets 1 and 257 give the same seeds and the
same account, and offsets 1 and 2 give different seeds. -/
theorem deriveMxeAccounts_compDef_offset_mod_256_witness :
    deriveMxeAccounts.compDefSeeds 1 = deriveMxeAccounts.compDefSeeds 257 ∧
    (∃ outA outB, deriveMxeAccounts sampleWeb3 mxeProgramKey 1 = .ok outA ∧
      deriveMxeAccounts sampleWeb3 mxeProgramKey 257 = .ok outB ∧
      (∃ bump, sampleWeb3.findProgramAddressSync
        [Buffer.from "comp_def", Buffer.fromArray [257]] mxeProgramKey
          = .ok (outB.compDefAccount, bump)) ∧
      Buffer.fromArray [257] = [1] ∧
      outA.compDefAccount = outB.compDefAccount) ∧
    deriveMxeAccounts.compDefSeeds 1 ≠ deriveMxeAccounts.compDefSeeds 2 := by
  obtain ⟨_, _, _, hiff, hsame, _⟩ :=
    deriveMxeAccounts_compDef_offset_mod_256 sampleWeb3 mxeProgramKey 1 257
  obtain ⟨hfind, _⟩ :=
    deriveMxeAccounts_compDef_offset_mod_256 sampleWeb3 mxeProgramKey 257 257
  obtain ⟨outA, hA⟩ := exists_ok_of_isOk
    (show (deriveMxeAccounts sampleWeb3 mxeProgramKey 1).isOk = true by decide)
  obtain ⟨outB, hB⟩ := exists_ok_of_isOk
    (show (deriveMxeAccounts sampleWeb3 mxeProgramKey 257).isOk = true by decide)
  refine ⟨hiff.mpr (by decide),
    ⟨outA, outB, hA, hB, hfind outB hB, by decide, hsame (by decide) outA outB hA hB⟩, ?_⟩
  exact (deriveMxeAccounts_compDef_offset_mod_256 sampleWeb3 mxeProgramKey 1 2).2.2.2.2.2
    (by decide) (by decide) (by decide)

/-- C18: `deriveCompDefPDA` of `check_comp_def_addresses.js` encodes `clusterOffset` and
`compDefOffset` as two adjacent decimal-ASCII seeds of variable length, so the
concatenation of its four seeds is not injective in the pair: for every account, the pairs
(12, 3) and (1, 23) give identical concatenated seed bytes although the pairs (and the
seed lists) differ. -/
theorem deriveCompDefPDA_concat_not_injective (mxeAccount : PublicKey) :
    Buffer.from (Number.toString 12) = [49, 50] ∧
    Buffer.from (Number.toString 3) = [51] ∧
    Buffer.from (Number.toString 1) = [49] ∧
    Buffer.from (Number.toString 23) = [50, 51] ∧
    ((12 : Nat), (3 : Nat)) ≠ (1, 23) ∧
    CheckCompDefAddresses.deriveCompDefPDA.seeds mxeAccount 12 3
      ≠ CheckCompDefAddresses.deriveCompDefPDA.seeds mxeAccount 1 23 ∧
    (CheckCompDefAddresses.deriveCompDefPDA.seeds mxeAccount 12 3).flatten
      = (CheckCompDefAddresses.deriveCompDefPDA.seeds mxeAccount 1 23).flatten := by
  have h12 : Buffer.from (Number.toString 12) = [49, 50] := by decide
  have h3 : Buffer.from (Number.toString 3) = [51] := by decide
  have h1 : Buffer.from (Number.toString 1) = [49] := by decide
  have h23 : Buffer.from (Number.toString 23) = [50, 51] := by decide
  refine ⟨h12, h3, h1, h23, by decide, ?_, ?_⟩
  · simp [CheckCompDefAddresses.deriveCompDefPDA.seeds, h12, h3, h1, h23]
  · simp [CheckCompDefAddresses.deriveCompDefPDA.seeds, h12, h3, h1, h23]

/-- C19: the mock ciphertext is a function of the plaintext alone: for every data, any
two owners and any two runtimes (hence any two nonces), the two calls of `encryptForMxe`
return and their ciphertext fields are equal. -/
theorem mock_ciphertext_depends_only_on_plaintext (data : Uint8Array)
    (owner1 owner2 : Option PublicKey) (env1 env2 : Env) :
    ∃ envelope1 rest1 envelope2 rest2,
      encryptForMxe data owner1 env1 = .ok (envelope1, rest1) ∧
      encryptForMxe data owner2 env2 = .ok (envelope2, rest2) ∧
      envelope1.ciphertext = envelope2.ciphertext :=
  ⟨_, _, _, _, encryptForMxe_eq data owner1 env1, encryptForMxe_eq data owner2 env2, rfl⟩

/-- C20: the instruction data built by `init_comp_def.js` is exactly 44 bytes: the
discriminator `[45, 185, 155, 17, 97, 77, 230, 73]`, then the 32 bytes of `MXE_PROGRAM`,
then `01 00 00 00`; its bytes 8..43 are the concatenation of the second and third seeds
of the script's `compDefAccount` derivation. -/
theorem instructionData_layout :
    InitCompDef.MXE_PROGRAM = .ok mxeProgramKey ∧
    littleEndian InitCompDef.COMP_DEF_OFFSET 4 = [1, 0, 0, 0] ∧
    InitCompDef.instructionData
      = .ok ([45, 185, 155, 17, 97, 77, 230, 73] ++ mxeProgramKey.toBuffer ++ [1, 0, 0, 0]) ∧
    ∃ data seeds, InitCompDef.instructionData = .ok data ∧
      InitCompDef.compDefSeeds = .ok seeds ∧
      data.length = 44 ∧
      seeds.length = 3 ∧
      data.take 8 = [45, 185, 155, 17, 97, 77, 230, 73] ∧
      data.drop 8 = (seeds.drop 1).flatten := by
  have hd : InitCompDef.instructionData
      = .ok ([45, 185, 155, 17, 97, 77, 230, 73] ++ mxeProgramKey.toBuffer ++ [1, 0, 0, 0]) := by
    decide
  have hs : InitCompDef.compDefSeeds
      = .ok [Buffer.from "ComputationDefinitionAccount", mxeProgramKey.toBuffer, [1, 0, 0, 0]] := by
    decide
  exact ⟨by decide, by decide, hd, _, _, hd, hs, by decide, rfl, by decide, by decide⟩

end ArciumPoker
